import Mathlib

/-!
# v8pp execution-context lifecycle (src/v8pp/context.cpp)

A shallow embedding of `v8pp::context`: its constructor, move constructor,
move assignment, destructor, `destroy`, `value` and `module`.

The scripting engine (V8) is an external capability.  It is represented by an
explicit `Engine` state that records, in chronological order, every effectful
engine call the code makes (`Engine.trace`), hands out fresh handles, keeps the
stack of entered contexts and the property store of the global objects.
Pointers that may be null are `Option`s (`none` is `nullptr`, an empty
`v8::Local` or an empty `v8::Global`); using a null pointer is a `Fault`.
-/

set_option linter.unusedVariables false

namespace v8pp

/-! ## Engine handles -/

/-- A non-null `v8::Isolate*`. -/
abbrev Isolate := Nat

/-- A non-empty `v8::Local<v8::ObjectTemplate>`. -/
abbrev Template := Nat

/-- A non-empty `v8::Local<v8::Value>` (or the target of a non-empty global handle to one). -/
abbrev Value := Nat

/-- A non-empty handle to a `v8::Context`; a context knows the isolate it was created in. -/
structure Ctx where
  isolate : Isolate
  id : Nat
deriving DecidableEq, Repr

/-- The `array_buffer_allocator` configured in `v8::Isolate::CreateParams`: either the
process-wide static `array_buffer_allocator_` of context.cpp or a host-supplied one. -/
inductive Allocator where
  | array_buffer_allocator_
  | host (p : Nat)
deriving DecidableEq, Repr

/-- The effectful engine calls made by context.cpp, with their arguments and, for the
creating calls, the handle the engine returned. -/
inductive Call where
  /-- `v8::Isolate::New(create_params)`. -/
  | isolate_new (array_buffer_allocator : Allocator) (result : Isolate)
  /-- `isolate->Enter()`. -/
  | isolate_enter (i : Isolate)
  /-- `isolate->Exit()`. -/
  | isolate_exit (i : Isolate)
  /-- `isolate->Dispose()`. -/
  | isolate_dispose (i : Isolate)
  /-- `v8::HandleScope scope(isolate)` is constructed. -/
  | handle_scope_ctor (i : Isolate)
  /-- `v8::HandleScope scope(isolate)` goes out of scope. -/
  | handle_scope_dtor (i : Isolate)
  /-- `v8::ObjectTemplate::New(isolate)`. -/
  | object_template_new (i : Isolate) (result : Template)
  /-- `v8::Context::New(isolate, nullptr, global)`. -/
  | context_new (i : Isolate) (global : Template) (result : Ctx)
  /-- `ctx->Enter()`. -/
  | context_enter (c : Ctx)
  /-- `ctx->Exit()`. -/
  | context_exit (c : Ctx)
  /-- `impl_.Reset(isolate, impl)`: the durable reference is made to point to `impl`. -/
  | global_reset_to (i : Isolate) (c : Ctx)
  /-- `impl_.Reset()` on a non-empty durable context reference: the reference is released. -/
  | global_reset (c : Ctx)
  /-- `v8pp::cleanup(isolate)`: the class singleton registry purge. -/
  | cleanup (i : Isolate)
  /-- `obj->Set(context, key, value)` on the global object of `target`. -/
  | object_set (current : Option Ctx) (target : Ctx) (key : String) (value : Value)
      (result : Option Bool)
  /-- Instantiation of a module's object template, `m.new_instance()`. -/
  | new_instance (tmpl : Template) (result : Value)
  /-- A non-empty `v8::Global<v8::Value>` (a module's exports) is released. -/
  | value_reset (v : Value)
deriving DecidableEq, Repr

/-- What goes wrong fatally: a null pointer or empty handle is used, or `FromJust` is
applied to an empty `v8::Maybe`. -/
inductive Fault where
  | null_pointer
  | from_just
deriving DecidableEq, Repr

/-- The state of the engine as far as context.cpp can observe it. -/
structure Engine where
  /-- Every engine call made so far, oldest first. -/
  trace : List Call
  /-- Number of isolates handed out; the next `v8::Isolate::New` returns this number. -/
  isolates : Nat
  /-- Number of object templates handed out. -/
  templates : Nat
  /-- Number of contexts handed out. -/
  contexts : Nat
  /-- Number of values handed out by template instantiation. -/
  values : Nat
  /-- The entered contexts, most recently entered first. -/
  entered : List Ctx
  /-- The properties of the global objects: (context, name) bound to a value. -/
  props : List ((Ctx × String) × Value)
deriving DecidableEq, Repr

/-- What the engine does with a property write `obj->Set(context, key, value)`. -/
inductive SetOutcome where
  /-- The write raises an exception: the result is an empty `v8::Maybe`. -/
  | rejected
  /-- The result is `Just(true)` although nothing is written: the property is read-only
  (as `NaN`, `Infinity` and `undefined` of a global object are) or the object is not
  extensible. -/
  | ignored
  /-- The property is written and the result is `Just(true)`. -/
  | written
deriving DecidableEq, Repr

/-- The engine's answer to a property write, which the code cannot influence: the outcome
of `Set` on the global object of `target`, given the calls so far, the current context
passed in, the key and the value. -/
structure Oracle where
  outcome : List Call → Option Ctx → Ctx → String → Value → SetOutcome

/-- Append one call to the trace. -/
def Engine.log (e : Engine) (c : Call) : Engine :=
  { e with trace := e.trace ++ [c] }

/-- The calls made after the engine was in state `e0`. -/
def Engine.calls_since (e0 e : Engine) : List Call :=
  e.trace.drop e0.trace.length

/-- An engine on which nothing has happened yet. -/
def Engine.fresh : Engine :=
  { trace := [], isolates := 0, templates := 0, contexts := 0, values := 0,
    entered := [], props := [] }

/-! ## The engine interface used by context.cpp -/

/-- Use of a pointer or handle: `p->...`, or passing it where the callee uses it. -/
def deref {α : Type} (p : Option α) : Except Fault α :=
  match p with
  | none => .error Fault.null_pointer
  | some a => .ok a

/-- `v8::Isolate::New(create_params)`: a fresh isolate. -/
def Isolate.New (array_buffer_allocator : Allocator) (e : Engine) : Isolate × Engine :=
  (e.isolates,
    { e with isolates := e.isolates + 1,
             trace := e.trace ++ [Call.isolate_new array_buffer_allocator e.isolates] })

/-- `isolate->Enter()`. -/
def Isolate.Enter (i : Isolate) (e : Engine) : Engine :=
  e.log (Call.isolate_enter i)

/-- `isolate->Exit()`. -/
def Isolate.Exit (i : Isolate) (e : Engine) : Engine :=
  e.log (Call.isolate_exit i)

/-- `isolate->Dispose()`. -/
def Isolate.Dispose (i : Isolate) (e : Engine) : Engine :=
  e.log (Call.isolate_dispose i)

/-- `isolate->GetCurrentContext()`: the most recently entered context of the isolate that
has not been exited, empty when there is none. -/
def Isolate.GetCurrentContext (i : Isolate) (e : Engine) : Option Ctx :=
  e.entered.find? (fun c => c.isolate == i)

/-- Constructor of `v8::HandleScope scope(isolate)`. -/
def HandleScope.ctor (i : Isolate) (e : Engine) : Engine :=
  e.log (Call.handle_scope_ctor i)

/-- Destructor of a `v8::HandleScope` opened on `i`. -/
def HandleScope.dtor (i : Isolate) (e : Engine) : Engine :=
  e.log (Call.handle_scope_dtor i)

/-- `v8::ObjectTemplate::New(isolate)`: a fresh, empty object template. -/
def ObjectTemplate.New (i : Isolate) (e : Engine) : Template × Engine :=
  (e.templates,
    { e with templates := e.templates + 1,
             trace := e.trace ++ [Call.object_template_new i e.templates] })

/-- `v8::Context::New(isolate, nullptr, global)`: a fresh context of the isolate. -/
def Context.New (i : Isolate) (global : Template) (e : Engine) : Ctx × Engine :=
  ({ isolate := i, id := e.contexts },
    { e with contexts := e.contexts + 1,
             trace := e.trace ++ [Call.context_new i global { isolate := i, id := e.contexts }] })

/-- `ctx->Enter()`: the context becomes the current one of its isolate. -/
def Context.Enter (c : Ctx) (e : Engine) : Engine :=
  { e with entered := c :: e.entered, trace := e.trace ++ [Call.context_enter c] }

/-- `ctx->Exit()`: the context is taken off the entered stack when it is the current
context of its isolate; the engine refuses to exit a context that is not. -/
def Context.Exit (c : Ctx) (e : Engine) : Engine :=
  { e with
      entered := if e.entered.find? (fun x => x.isolate == c.isolate) = some c
                 then e.entered.erase c else e.entered,
      trace := e.trace ++ [Call.context_exit c] }

/-- `g.Reset(isolate, local)` on a `v8::Global<v8::Context>`: the new content of `g`. -/
def Global.Reset_to (i : Isolate) (l : Ctx) (e : Engine) : Option Ctx × Engine :=
  (some l, e.log (Call.global_reset_to i l))

/-- `g.Reset()` on a `v8::Global<v8::Context>`: releases the reference; on an empty handle
it does nothing.  Returns the new content of `g`. -/
def Global.Reset (g : Option Ctx) (e : Engine) : Option Ctx × Engine :=
  match g with
  | none => (none, e)
  | some c => (none, e.log (Call.global_reset c))

/-- Move assignment `dst = std::move(src)` of a `v8::Global<v8::Context>` (two distinct
handles): `dst` is reset, then takes over the content of `src`, which becomes empty.
Returns the new `dst`, the new `src` and the engine. -/
def Global.move_assign (dst src : Option Ctx) (e : Engine) : Option Ctx × Option Ctx × Engine :=
  let r := Global.Reset dst e
  (src, none, r.2)

/-- `v8pp::to_local(isolate, global_handle)`: a local handle to what the global handle
refers to, empty when the global handle is empty. -/
def to_local (i : Option Isolate) (g : Option Ctx) : Except Fault (Option Ctx) :=
  match g with
  | none => .ok none
  | some c =>
    match i with
    | none => .error Fault.null_pointer
    | some _ => .ok (some c)

/-- `v8pp::cleanup(isolate)`: purge of the class singleton registry and external data. -/
def cleanup (i : Isolate) (e : Engine) : Engine :=
  e.log (Call.cleanup i)

/-- `obj->Set(context, key, value)` on the global object of `target`: when the engine
rejects the write the result is empty and nothing is written; when it ignores the write
the result is `Just(true)` and nothing is written; when it performs the write the binding
of `key` is replaced by `value` and the result is `Just(true)`. -/
def Object.Set (o : Oracle) (target : Ctx) (current : Option Ctx) (key : String) (value : Value)
    (e : Engine) : Option Bool × Engine :=
  match o.outcome e.trace current target key value with
  | SetOutcome.rejected =>
    (none, e.log (Call.object_set current target key value none))
  | SetOutcome.ignored =>
    (some true, e.log (Call.object_set current target key value (some true)))
  | SetOutcome.written =>
    (some true,
      { e with props := ((target, key), value) :: e.props.filter (fun p => p.1 != (target, key)),
               trace := e.trace ++ [Call.object_set current target key value (some true)] })

/-- `maybe.FromJust()`: fatal on an empty `v8::Maybe`. -/
def FromJust (m : Option Bool) : Except Fault Bool :=
  match m with
  | none => .error Fault.from_just
  | some b => .ok b

/-- A scripted read of the global variable `name` of context `c`. -/
def Engine.read (e : Engine) (c : Ctx) (name : String) : Option Value :=
  (e.props.find? (fun p => p.1 == (c, name))).map (fun p => p.2)

/-- The number of bindings the global object of `c` holds for `name`. -/
def Engine.bindings (e : Engine) (c : Ctx) (name : String) : Nat :=
  (e.props.filter (fun p => p.1 == (c, name))).length

/-- Release of the exports handles of the records of a module table that is destroyed
(the destructor of each `dynamic_module` resets its non-empty `exports`). -/
def release_exports (exports : List (Option Value)) (e : Engine) : Engine :=
  match exports with
  | [] => e
  | none :: rest => release_exports rest e
  | some v :: rest => release_exports rest (e.log (Call.value_reset v))

/-! ## The context class -/

/-- The record `context::dynamic_module`: a native library handle and a global handle to
the exported value. -/
structure dynamic_module where
  handle : Nat
  exports : Option Value
deriving DecidableEq, Repr

/-- The data members of `v8pp::context`. -/
structure context where
  own_isolate_ : Bool
  enter_context_ : Bool
  isolate_ : Option Isolate
  impl_ : Option Ctx
  modules_ : List (String × dynamic_module)
  lib_path_ : String
deriving DecidableEq, Repr

/-- `context::create_isolate(allocator)`. -/
def context.create_isolate (allocator : Option Nat) (e : Engine) : Isolate × Engine :=
  let array_buffer_allocator :=
    match allocator with
    | some a => Allocator.host a
    | none => Allocator.array_buffer_allocator_
  Isolate.New array_buffer_allocator e

/-- The constructor `context::context(isolate, allocator, add_default_global_methods,
enter_context, global)`.  The engine hands out non-null handles, so construction never
uses a null pointer; it returns the new object and the engine. -/
def context.ctor (isolate : Option Isolate) (allocator : Option Nat)
    (add_default_global_methods : Bool) (enter_context : Bool) (global : Option Template)
    (e : Engine) : context × Engine :=
  let own_isolate_ := isolate == none
  let enter_context_ := enter_context
  let r :=
    match isolate with
    | some i => (i, e)
    | none => context.create_isolate allocator e
  let isolate_ := r.1
  let e := r.2
  let e := if own_isolate_ then Isolate.Enter isolate_ e else e
  let e := HandleScope.ctor isolate_ e
  let r :=
    match global with
    | none => ObjectTemplate.New isolate_ e
    | some g => (g, e)
  let global := r.1
  let e := r.2
  let r := Context.New isolate_ global e
  let impl := r.1
  let e := r.2
  let e := if enter_context_ then Context.Enter impl e else e
  let r := Global.Reset_to isolate_ impl e
  let impl_ := r.1
  let e := r.2
  let e := HandleScope.dtor isolate_ e
  ({ own_isolate_ := own_isolate_, enter_context_ := enter_context_, isolate_ := some isolate_,
     impl_ := impl_, modules_ := [], lib_path_ := "" }, e)

/-- The move constructor `context::context(context&& src)`: the new object and what is
left of `src`.  A moved-from module table and a moved-from string are empty.  No engine
call is made: moving a global handle only transfers the reference. -/
def context.move_ctor (src : context) : context × context :=
  ({ own_isolate_ := src.own_isolate_,
     enter_context_ := src.enter_context_,
     isolate_ := src.isolate_,
     impl_ := src.impl_,
     modules_ := src.modules_,
     lib_path_ := src.lib_path_ },
   { own_isolate_ := false,
     enter_context_ := false,
     isolate_ := none,
     impl_ := none,
     modules_ := [],
     lib_path_ := "" })

/-- The test at the head of `destroy`: `isolate_ == nullptr && impl_.IsEmpty()`. -/
def context.moved_out (c : context) : Bool :=
  c.isolate_ == none && c.impl_ == none

/-- `context::destroy()`. -/
def context.destroy (c : context) (e : Engine) : Except Fault (context × Engine) :=
  if c.moved_out then
    -- moved out state
    .ok (c, e)
  else do
    -- remove all class singletons and external data before modules unload
    let i ← deref c.isolate_
    let e := cleanup i e
    let e ←
      if c.enter_context_ then do
        let l ← to_local c.isolate_ c.impl_
        let l ← deref l
        pure (Context.Exit l e)
      else pure e
    let r := Global.Reset c.impl_ e
    let impl_ := r.1
    let e := r.2
    let e ←
      if c.own_isolate_ then do
        let i ← deref c.isolate_
        let e := Isolate.Exit i e
        let i ← deref c.isolate_
        pure (Isolate.Dispose i e)
      else pure e
    pure ({ c with impl_ := impl_, isolate_ := none }, e)

/-- The destructor `context::~context()`: the body runs `destroy()`, after which the
members are destroyed: the module table releases the exports of its records and `impl_`
(empty by then) is reset.  Returns the engine; the object is gone. -/
def context.dtor (c : context) (e : Engine) : Except Fault Engine := do
  let r ← c.destroy e
  let e := release_exports (r.1.modules_.map (fun m => m.2.exports)) r.2
  pure (Global.Reset r.1.impl_ e).2

/-- Storage holding the context objects of the program, by address. -/
abbrev Heap := Nat → context

/-- Write an object at an address. -/
def Heap.set (h : Heap) (a : Nat) (c : context) : Heap :=
  fun x => if x = a then c else h x

/-- The move assignment `context::operator=(context&& src)` applied to the object at
address `this_` with the object at address `src`. -/
def context.move_assign (this_ src : Nat) (h : Heap) (e : Engine) : Except Fault (Heap × Engine) :=
  if src ≠ this_ then do
    let r ← (h this_).destroy e
    let t := r.1
    let e := r.2
    let s := h src
    -- own_isolate_ = std::exchange(src.own_isolate_, false);
    let t := { t with own_isolate_ := s.own_isolate_ }
    let s := { s with own_isolate_ := false }
    -- enter_context_ = std::exchange(src.enter_context_, false);
    let t := { t with enter_context_ := s.enter_context_ }
    let s := { s with enter_context_ := false }
    -- isolate_ = std::exchange(src.isolate_, nullptr);
    let t := { t with isolate_ := s.isolate_ }
    let s := { s with isolate_ := none }
    -- impl_ = std::move(src.impl_);
    let r := Global.move_assign t.impl_ s.impl_ e
    let t := { t with impl_ := r.1 }
    let s := { s with impl_ := r.2.1 }
    let e := r.2.2
    -- modules_ = std::move(src.modules_);
    let e := release_exports (t.modules_.map (fun m => m.2.exports)) e
    let t := { t with modules_ := s.modules_ }
    let s := { s with modules_ := [] }
    -- lib_path_ = std::move(src.lib_path_);
    let t := { t with lib_path_ := s.lib_path_ }
    let s := { s with lib_path_ := "" }
    pure ((h.set src s).set this_ t, e)
  else
    pure (h, e)

/-- Modelled from the spec: `context::global()` of context.hpp, which is not part of the
sources at hand; it "resolves the root scope", the global object of the context that
`impl_` refers to. -/
def context.global (c : context) : Except Fault Ctx := do
  let l ← to_local c.isolate_ c.impl_
  deref l

/-- `context::value(name, value)`; `to_v8(isolate_, name)` is the name as an engine
string.  Returns `*this` and the engine. -/
def context.value (o : Oracle) (c : context) (name : String) (value : Value) (e : Engine) :
    Except Fault (context × Engine) := do
  let i ← deref c.isolate_
  let e := HandleScope.ctor i e
  let g ← c.global
  let i ← deref c.isolate_
  let current := Isolate.GetCurrentContext i e
  let r := Object.Set o g current name value e
  let _ ← FromJust r.1
  let e := r.2
  let i ← deref c.isolate_
  pure (c, HandleScope.dtor i e)

/-- Modelled from the spec: `v8pp::module` of module.hpp, which is not part of the sources
at hand; binding a module "instantiates the module's exported value" from its object
template. -/
structure module where
  obj_ : Template
deriving DecidableEq, Repr

/-- Modelled from the spec: `module::new_instance()`, which is not part of the sources at
hand: the engine instantiates the module's object template into a fresh value. -/
def module.new_instance (m : module) (e : Engine) : Value × Engine :=
  (e.values,
    { e with values := e.values + 1,
             trace := e.trace ++ [Call.new_instance m.obj_ e.values] })

/-- `context::module(name, m)`. -/
def context.module (o : Oracle) (c : context) (name : String) (m : module) (e : Engine) :
    Except Fault (context × Engine) :=
  let r := m.new_instance e
  c.value o name r.1 r.2

/-- A call of one of the two global binding accessors. -/
inductive Binding where
  | value (name : String) (v : Value)
  | module (name : String) (m : module)
deriving DecidableEq, Repr

/-- A sequence of `value` and `module` calls on one context, in order; a fatal call ends
the program. -/
def context.bind_all (o : Oracle) (c : context) (bs : List Binding) (e : Engine) :
    Except Fault (context × Engine) :=
  match bs with
  | [] => .ok (c, e)
  | Binding.value name v :: rest => do
    let r ← c.value o name v e
    context.bind_all o r.1 rest r.2
  | Binding.module name m :: rest => do
    let r ← c.module o name m e
    context.bind_all o r.1 rest r.2

/-! ## The module loader -/

/-- Modelled from the spec: the dynamic library loader capability and the plug-in entry
point contract that `load_module` consumes; neither the loader nor `load_module` is part of
the sources at hand.  Path resolution, the entry point symbol and the outcomes of opening a
library, resolving the symbol and running the entry point belong to the platform. -/
structure Loader where
  /-- The shared-library path for a search path and a module name (it appends the
  platform-specific filename suffix). -/
  resolve_path : String → String → String
  /-- The fixed symbol name of the initialization entry point. -/
  init_proc_name : String
  /-- The call `open(path)`: a library handle, or nothing on failure (file not found, load
  error). -/
  dl_open : String → Option Nat
  /-- The call `resolve_symbol(handle, name)`: a function pointer, or nothing. -/
  resolve_symbol : Nat → String → Option Nat
  /-- Running the entry point on the engine instance: the exported value, or nothing when
  the module signals an error. -/
  call_init : Nat → Option Isolate → Option Value
  /-- The policy for a name already present: return the existing record without
  reloading (`true`), or reject the call as a duplicate (`false`). -/
  reload_returns_existing : Bool

/-- Modelled from the spec: the failures `load_module` reports. -/
inductive LoadError where
  | load_failed (path : String)
  | no_entry_point (path : String)
  | init_failed (name : String)
  | duplicate (name : String)
deriving DecidableEq, Repr

/-- Modelled from the spec: `load(context, module_name)` of the Module Loader (§4.3), which
is not part of the sources at hand.  It resolves the name to a path with the search path of
the context, loads the library, resolves and invokes the entry point with the isolate of
the context, and on success inserts a record keyed by the name.  Returns the record or the
failure, and the context afterwards. -/
def context.load_module (ld : Loader) (c : context) (name : String) :
    Except LoadError dynamic_module × context :=
  match c.modules_.lookup name with
  | some m =>
    if ld.reload_returns_existing then (.ok m, c)
    else (.error (LoadError.duplicate name), c)
  | none =>
    let path := ld.resolve_path c.lib_path_ name
    match ld.dl_open path with
    | none => (.error (LoadError.load_failed path), c)
    | some handle =>
      match ld.resolve_symbol handle ld.init_proc_name with
      | none => (.error (LoadError.no_entry_point path), c)
      | some init =>
        match ld.call_init init c.isolate_ with
        | none => (.error (LoadError.init_failed name), c)
        | some v =>
          (.ok { handle := handle, exports := some v },
            { c with modules_ := c.modules_ ++ [(name, { handle := handle, exports := some v })] })

/-- The context owns isolate `j`: destroying it disposes `j`. -/
def context.owns (c : context) (j : Isolate) : Bool :=
  c.own_isolate_ && c.isolate_ == some j

/-! ## Class invariant -/

/-- A context that refers to an isolate and holds a durable context reference. -/
def context.live (c : context) : Prop :=
  c.isolate_ ≠ none ∧ c.impl_ ≠ none

instance (c : context) : Decidable c.live := by
  unfold context.live; infer_instance

/-- The class invariant: a context is either live or in the moved-out state.  The
constructor establishes it and every member function keeps it. -/
def context.valid (c : context) : Prop :=
  c.live ∨ c.moved_out = true

instance (c : context) : Decidable c.valid := by
  unfold context.valid; infer_instance

/-- The engine calls of the teardown protocol of a live context, in order. -/
def context.teardown (c : context) : List Call :=
  match c.isolate_, c.impl_ with
  | some i, some x =>
    [Call.cleanup i]
      ++ (if c.enter_context_ then [Call.context_exit x] else [])
      ++ [Call.global_reset x]
      ++ (if c.own_isolate_ then [Call.isolate_exit i, Call.isolate_dispose i] else [])
  | _, _ => []

/-- The releases of the exports of a module table, in the order its records are destroyed. -/
def release_calls (ms : List (String × dynamic_module)) : List Call :=
  ms.filterMap (fun m => m.2.exports.map Call.value_reset)


/-! ## Vocabulary of the statements -/

/-- The allocator `create_isolate` configures for a given `allocator` argument. -/
def context.chosen_allocator (allocator : Option Nat) : Allocator :=
  match allocator with
  | some a => Allocator.host a
  | none => Allocator.array_buffer_allocator_

/-- The engine calls of the constructor after the isolate is acquired: from the handle
scope to its end, on isolate `i`, in engine state `e`. -/
def context.ctor_scope_calls (i : Isolate) (enter_context : Bool) (global : Option Template)
    (e : Engine) : List Call :=
  [Call.handle_scope_ctor i]
    ++ (match global with
        | none => [Call.object_template_new i e.templates]
        | some _ => [])
    ++ [Call.context_new i (global.getD e.templates) { isolate := i, id := e.contexts }]
    ++ (if enter_context then [Call.context_enter { isolate := i, id := e.contexts }] else [])
    ++ [Call.global_reset_to i { isolate := i, id := e.contexts },
        Call.handle_scope_dtor i]

/-- The engine calls a global binding accessor can make. -/
def Call.is_binding_call (k : Call) : Bool :=
  match k with
  | Call.handle_scope_ctor _ => true
  | Call.handle_scope_dtor _ => true
  | Call.object_set _ _ _ _ _ => true
  | Call.new_instance _ _ => true
  | _ => false

/-- The engine state after a performed write of `name` to `v` by `value` on a context
with isolate `i` and durable reference `x`. -/
def Engine.after_write (e : Engine) (i : Isolate) (x : Ctx) (name : String) (v : Value) :
    Engine :=
  { e with
      props := ((x, name), v) :: e.props.filter (fun p => p.1 != (x, name)),
      trace := e.trace ++ [Call.handle_scope_ctor i,
                           Call.object_set (e.entered.find? (fun c => c.isolate == i)) x name v
                             (some true),
                           Call.handle_scope_dtor i] }

/-- The engine state after an ignored write of `name` to `v` by `value` on a context with
isolate `i` and durable reference `x`: the calls are made, no property changes. -/
def Engine.after_ignored_write (e : Engine) (i : Isolate) (x : Ctx) (name : String)
    (v : Value) : Engine :=
  { e with
      trace := e.trace ++ [Call.handle_scope_ctor i,
                           Call.object_set (e.entered.find? (fun c => c.isolate == i)) x name v
                             (some true),
                           Call.handle_scope_dtor i] }

/-- The outcome the engine gives the write that `value` makes in state `e`. -/
def Oracle.write_outcome (o : Oracle) (e : Engine) (i : Isolate) (x : Ctx) (name : String)
    (v : Value) : SetOutcome :=
  o.outcome (e.trace ++ [Call.handle_scope_ctor i]) (e.entered.find? (fun c => c.isolate == i))
    x name v

/-- Recognises `isolate->Dispose()`. -/
def Call.is_dispose (k : Call) : Bool :=
  match k with
  | Call.isolate_dispose _ => true
  | _ => false

/-- Recognises `v8::Isolate::New`. -/
def Call.is_isolate_new (k : Call) : Bool :=
  match k with
  | Call.isolate_new _ _ => true
  | _ => false

/-- Recognises `Enter`, `Exit` and `Dispose` of an isolate. -/
def Call.is_isolate_lifecycle (k : Call) : Bool :=
  match k with
  | Call.isolate_enter _ => true
  | Call.isolate_exit _ => true
  | Call.isolate_dispose _ => true
  | _ => false

/-- Recognises `Enter` of a context. -/
def Call.is_context_enter (k : Call) : Bool :=
  match k with
  | Call.context_enter _ => true
  | _ => false

/-- Recognises `Exit` of a context. -/
def Call.is_context_exit (k : Call) : Bool :=
  match k with
  | Call.context_exit _ => true
  | _ => false

/-- An oracle under which the engine performs every write. -/
def Oracle.accept_all : Oracle :=
  { outcome := fun _ _ _ _ _ => SetOutcome.written }

/-- An oracle under which the properties named in `names` are read-only: a write to one
of them is ignored, every other write is performed. -/
def Oracle.read_only (names : List String) : Oracle :=
  { outcome := fun _ _ _ key _ =>
      if names.contains key then SetOutcome.ignored else SetOutcome.written }

/-- The state every move leaves its source in. -/
def context.inert : context :=
  { own_isolate_ := false, enter_context_ := false, isolate_ := none, impl_ := none,
    modules_ := [], lib_path_ := "" }

/-- A live context that owns its isolate, entered its context and holds one module record. -/
def context.sample : context :=
  { own_isolate_ := true, enter_context_ := true, isolate_ := some 0,
    impl_ := some { isolate := 0, id := 0 },
    modules_ := [("m", { handle := 1, exports := some 5 })], lib_path_ := "lib" }

/-- The isolate a context constructed in engine state `e` refers to. -/
def context.ctor_isolate (isolate : Option Isolate) (e : Engine) : Isolate :=
  match isolate with
  | some i => i
  | none => e.isolates

/-- The engine calls by which the constructor acquires its isolate. -/
def context.ctor_acquire_calls (isolate : Option Isolate) (allocator : Option Nat) (e : Engine) :
    List Call :=
  match isolate with
  | some _ => []
  | none => [Call.isolate_new (context.chosen_allocator allocator) e.isolates,
             Call.isolate_enter e.isolates]

/-- A live context that borrows isolate 9 and did not enter its context. -/
def context.sample_borrowed : context :=
  { own_isolate_ := false, enter_context_ := false, isolate_ := some 9,
    impl_ := some { isolate := 9, id := 4 }, modules_ := [], lib_path_ := "" }

/-- Three objects: the sample context at address 1, the borrowing sample at address 2, and
moved-out objects elsewhere. -/
def Heap.sample : Heap :=
  fun a => if a = 1 then context.sample else if a = 2 then context.sample_borrowed
    else context.inert

/-! ## Helper lemmas -/

theorem calls_since_append (e0 e : Engine) (l : List Call) (h : e.trace = e0.trace ++ l) :
    e0.calls_since e = l := by
  simp [Engine.calls_since, h]

theorem destroy_moved_out (c : context) (e : Engine) (h : c.moved_out = true) :
    c.destroy e = .ok (c, e) := by
  simp [context.destroy, h]

theorem destroy_live (c : context) (e : Engine) (i : Isolate) (x : Ctx)
    (hi : c.isolate_ = some i) (hx : c.impl_ = some x) :
    ∃ e1, c.destroy e = .ok ({ c with impl_ := none, isolate_ := none }, e1)
      ∧ e1.trace = e.trace ++ c.teardown
      ∧ e1.isolates = e.isolates ∧ e1.contexts = e.contexts ∧ e1.props = e.props := by
  rcases c with ⟨own, ent, iso, impl, ms, lp⟩
  simp only at hi hx
  subst hi hx
  cases own <;> cases ent <;>
    simp [context.destroy, context.moved_out, context.teardown, deref, to_local, cleanup,
      Context.Exit, Global.Reset, Isolate.Exit, Isolate.Dispose, Engine.log, bind, Except.bind,
      pure, Except.pure]

theorem valid_not_moved_out (c : context) (hv : c.valid) (hn : c.moved_out = false) :
    ∃ i x, c.isolate_ = some i ∧ c.impl_ = some x := by
  rcases hv with ⟨h1, h2⟩ | h
  · cases hi : c.isolate_ with
    | none => exact absurd hi h1
    | some i =>
      cases hx : c.impl_ with
      | none => exact absurd hx h2
      | some x => exact ⟨i, x, rfl, rfl⟩
  · rw [h] at hn; cases hn

theorem release_exports_trace (l : List (String × dynamic_module)) (e : Engine) :
    (release_exports (l.map (fun m => m.2.exports)) e).trace = e.trace ++ release_calls l
      ∧ (release_exports (l.map (fun m => m.2.exports)) e).isolates = e.isolates
      ∧ (release_exports (l.map (fun m => m.2.exports)) e).contexts = e.contexts
      ∧ (release_exports (l.map (fun m => m.2.exports)) e).props = e.props := by
  induction l generalizing e with
  | nil => simp [release_exports, release_calls]
  | cons m rest ih =>
    cases hm : m.2.exports with
    | none =>
      simp only [List.map_cons, hm, release_exports]
      rw [(ih e).1, (ih e).2.1, (ih e).2.2.1, (ih e).2.2.2]
      simp [release_calls, hm]
    | some v =>
      simp only [List.map_cons, hm, release_exports]
      rw [(ih _).1, (ih _).2.1, (ih _).2.2.1, (ih _).2.2.2]
      simp [release_calls, hm, Engine.log]

theorem dtor_live (c : context) (e : Engine) (i : Isolate) (x : Ctx)
    (hi : c.isolate_ = some i) (hx : c.impl_ = some x) :
    ∃ e1, c.dtor e = .ok e1
      ∧ e1.trace = e.trace ++ c.teardown ++ release_calls c.modules_ := by
  obtain ⟨e1, h1, h2, -⟩ := destroy_live c e i x hi hx
  refine ⟨release_exports (c.modules_.map (fun m => m.2.exports)) e1, ?_, ?_⟩
  · simp [context.dtor, h1, bind, Except.bind, pure, Except.pure, Global.Reset]
  · simp [(release_exports_trace c.modules_ e1).1, h2]

theorem dtor_moved_out (c : context) (e : Engine) (h : c.moved_out = true) :
    ∃ e1, c.dtor e = .ok e1 ∧ e1.trace = e.trace ++ release_calls c.modules_ := by
  have hi : c.impl_ = none := by
    simp [context.moved_out] at h; exact h.2
  refine ⟨release_exports (c.modules_.map (fun m => m.2.exports)) e, ?_, ?_⟩
  · simp [context.dtor, destroy_moved_out c e h, bind, Except.bind, pure, Except.pure,
      Global.Reset, hi]
  · simp [(release_exports_trace c.modules_ e).1]

theorem ctor_owned (allocator : Option Nat) (adg ent : Bool) (global : Option Template)
    (e : Engine) :
    (context.ctor none allocator adg ent global e).1 =
        { own_isolate_ := true, enter_context_ := ent, isolate_ := some e.isolates,
          impl_ := some { isolate := e.isolates, id := e.contexts },
          modules_ := [], lib_path_ := "" }
      ∧ (context.ctor none allocator adg ent global e).2.trace =
        e.trace ++ ([Call.isolate_new (context.chosen_allocator allocator) e.isolates,
                     Call.isolate_enter e.isolates]
                    ++ context.ctor_scope_calls e.isolates ent global e) := by
  cases allocator <;> cases ent <;> cases global <;>
    simp [context.ctor, context.create_isolate, context.chosen_allocator,
      context.ctor_scope_calls, Isolate.New, Isolate.Enter, HandleScope.ctor, HandleScope.dtor,
      ObjectTemplate.New, Context.New, Context.Enter, Global.Reset_to, Engine.log]

theorem ctor_borrowed (i : Isolate) (allocator : Option Nat) (adg ent : Bool)
    (global : Option Template) (e : Engine) :
    (context.ctor (some i) allocator adg ent global e).1 =
        { own_isolate_ := false, enter_context_ := ent, isolate_ := some i,
          impl_ := some { isolate := i, id := e.contexts },
          modules_ := [], lib_path_ := "" }
      ∧ (context.ctor (some i) allocator adg ent global e).2.trace =
        e.trace ++ context.ctor_scope_calls i ent global e := by
  cases ent <;> cases global <;>
    simp [context.ctor, context.ctor_scope_calls, HandleScope.ctor, HandleScope.dtor,
      ObjectTemplate.New, Context.New, Context.Enter, Global.Reset_to, Engine.log]

theorem value_live (o : Oracle) (c : context) (name : String) (v : Value) (e : Engine)
    (i : Isolate) (x : Ctx) (hi : c.isolate_ = some i) (hx : c.impl_ = some x) :
    c.value o name v e =
      match o.write_outcome e i x name v with
      | SetOutcome.rejected => .error Fault.from_just
      | SetOutcome.ignored => .ok (c, e.after_ignored_write i x name v)
      | SetOutcome.written => .ok (c, e.after_write i x name v) := by
  cases hr : o.outcome (e.trace ++ [Call.handle_scope_ctor i])
      (e.entered.find? (fun c => c.isolate == i)) x name v <;>
    simp [context.value, context.global, to_local, deref, bind, Except.bind, Object.Set,
      pure, Except.pure, hi, hx, HandleScope.ctor, HandleScope.dtor, Engine.log,
      Isolate.GetCurrentContext, Oracle.write_outcome, hr, FromJust, Engine.after_write,
      Engine.after_ignored_write]

theorem value_not_live (o : Oracle) (c : context) (name : String) (v : Value) (e : Engine)
    (h : c.isolate_ = none ∨ c.impl_ = none) :
    c.value o name v e = .error Fault.null_pointer := by
  cases hi : c.isolate_ with
  | none => simp [context.value, deref, bind, Except.bind, hi]
  | some i =>
    have hx : c.impl_ = none := by
      rcases h with h | h
      · rw [hi] at h; cases h
      · exact h
    simp [context.value, context.global, to_local, deref, bind, Except.bind, hi, hx]

theorem value_ok_inv (o : Oracle) (c : context) (name : String) (v : Value) (e : Engine)
    (r : context × Engine) (h : c.value o name v e = .ok r) :
    r.1 = c ∧ ∃ l, r.2.trace = e.trace ++ l ∧ ∀ k ∈ l, k.is_binding_call = true := by
  cases hi : c.isolate_ with
  | none => rw [value_not_live o c name v e (Or.inl hi)] at h; cases h
  | some i =>
    cases hx : c.impl_ with
    | none => rw [value_not_live o c name v e (Or.inr hx)] at h; cases h
    | some x =>
      rw [value_live o c name v e i x hi hx] at h
      split at h
      · cases h
      · simp only [Except.ok.injEq] at h
        subst h
        refine ⟨rfl, _, rfl, ?_⟩
        intro k hk
        simp at hk
        rcases hk with rfl | rfl | rfl <;> rfl
      · simp only [Except.ok.injEq] at h
        subst h
        refine ⟨rfl, _, rfl, ?_⟩
        intro k hk
        simp at hk
        rcases hk with rfl | rfl | rfl <;> rfl

theorem module_ok_inv (o : Oracle) (c : context) (name : String) (m : module) (e : Engine)
    (r : context × Engine) (h : c.module o name m e = .ok r) :
    r.1 = c ∧ ∃ l, r.2.trace = e.trace ++ l ∧ ∀ k ∈ l, k.is_binding_call = true := by
  simp only [context.module] at h
  obtain ⟨h1, l, h2, h3⟩ := value_ok_inv o c name _ _ r h
  refine ⟨h1, Call.new_instance m.obj_ e.values :: l, ?_, ?_⟩
  · rw [h2]; simp [module.new_instance]
  · intro k hk
    simp at hk
    rcases hk with rfl | hk
    · rfl
    · exact h3 k hk

theorem bind_all_ok_inv (o : Oracle) (c : context) (bs : List Binding) (e : Engine)
    (r : context × Engine) (h : c.bind_all o bs e = .ok r) :
    r.1 = c ∧ ∃ l, r.2.trace = e.trace ++ l ∧ ∀ k ∈ l, k.is_binding_call = true := by
  induction bs generalizing c e with
  | nil =>
    simp only [context.bind_all, Except.ok.injEq] at h
    subst h
    exact ⟨rfl, [], by simp, by simp⟩
  | cons b rest ih =>
    cases b with
    | value name v =>
      simp only [context.bind_all, bind, Except.bind] at h
      cases hv : c.value o name v e with
      | error f => simp [hv] at h
      | ok r1 =>
        simp only [hv] at h
        obtain ⟨a1, l1, a2, a3⟩ := value_ok_inv o c name v e r1 hv
        obtain ⟨b1, l2, b2, b3⟩ := ih r1.1 r1.2 h
        refine ⟨b1.trans a1, l1 ++ l2, ?_, ?_⟩
        · rw [b2, a2, List.append_assoc]
        · intro k hk
          rcases List.mem_append.1 hk with hk | hk
          · exact a3 k hk
          · exact b3 k hk
    | module name m =>
      simp only [context.bind_all, bind, Except.bind] at h
      cases hv : c.module o name m e with
      | error f => simp [hv] at h
      | ok r1 =>
        simp only [hv] at h
        obtain ⟨a1, l1, a2, a3⟩ := module_ok_inv o c name m e r1 hv
        obtain ⟨b1, l2, b2, b3⟩ := ih r1.1 r1.2 h
        refine ⟨b1.trans a1, l1 ++ l2, ?_, ?_⟩
        · rw [b2, a2, List.append_assoc]
        · intro k hk
          rcases List.mem_append.1 hk with hk | hk
          · exact a3 k hk
          · exact b3 k hk

theorem filter_binding_calls (p : Call → Bool) (l : List Call)
    (hp : ∀ k, k.is_binding_call = true → p k = false)
    (hl : ∀ k ∈ l, k.is_binding_call = true) : l.filter p = [] := by
  rw [List.filter_eq_nil_iff]
  intro k hk
  simp [hp k (hl k hk)]

theorem ctor_scope_calls_filter (p : Call → Bool) (i : Isolate) (ent : Bool)
    (global : Option Template) (e : Engine)
    (h1 : ∀ j, p (Call.handle_scope_ctor j) = false)
    (h2 : ∀ j, p (Call.handle_scope_dtor j) = false)
    (h3 : ∀ j t, p (Call.object_template_new j t) = false)
    (h4 : ∀ j t x, p (Call.context_new j t x) = false)
    (h5 : ∀ j x, p (Call.global_reset_to j x) = false) :
    (context.ctor_scope_calls i ent global e).filter p =
      if ent then [Call.context_enter { isolate := i, id := e.contexts }].filter p else [] := by
  cases ent <;> cases global <;>
    simp [context.ctor_scope_calls, List.filter_cons, h1, h2, h3, h4, h5]

theorem dtor_live_no_modules (c : context) (e : Engine) (i : Isolate) (x : Ctx)
    (hi : c.isolate_ = some i) (hx : c.impl_ = some x) (hm : c.modules_ = []) :
    ∃ e1, c.destroy e = .ok ({ c with impl_ := none, isolate_ := none }, e1)
      ∧ c.dtor e = .ok e1 ∧ e1.trace = e.trace ++ c.teardown := by
  obtain ⟨e1, h1, h2, -⟩ := destroy_live c e i x hi hx
  refine ⟨e1, h1, ?_, h2⟩
  simp [context.dtor, h1, bind, Except.bind, pure, Except.pure, Global.Reset, hm,
    release_exports]

theorem move_assign_live (this_ src : Nat) (h : Heap) (e : Engine) (i : Isolate) (x : Ctx)
    (hne : src ≠ this_) (hi : (h this_).isolate_ = some i) (hx : (h this_).impl_ = some x) :
    ∃ e1, context.move_assign this_ src h e = .ok ((h.set src context.inert).set this_ (h src), e1)
      ∧ e1.trace = e.trace ++ (h this_).teardown ++ release_calls (h this_).modules_ := by
  obtain ⟨e1, h1, h2, -⟩ := destroy_live (h this_) e i x hi hx
  refine ⟨release_exports ((h this_).modules_.map (fun m => m.2.exports)) e1, ?_, ?_⟩
  · simp [context.move_assign, hne, h1, bind, Except.bind, pure, Except.pure,
      Global.move_assign, Global.Reset, context.inert]
  · simp [(release_exports_trace (h this_).modules_ e1).1, h2]

theorem move_assign_moved_out (this_ src : Nat) (h : Heap) (e : Engine)
    (hne : src ≠ this_) (hm : (h this_).moved_out = true) :
    ∃ e1, context.move_assign this_ src h e = .ok ((h.set src context.inert).set this_ (h src), e1)
      ∧ e1.trace = e.trace ++ release_calls (h this_).modules_ := by
  have hi : (h this_).impl_ = none := by
    simp [context.moved_out] at hm; exact hm.2
  refine ⟨release_exports ((h this_).modules_.map (fun m => m.2.exports)) e, ?_, ?_⟩
  · simp [context.move_assign, hne, destroy_moved_out _ e hm, bind, Except.bind, pure,
      Except.pure, Global.move_assign, Global.Reset, context.inert, hi]
  · simp [(release_exports_trace (h this_).modules_ e).1]

theorem move_assign_self (a : Nat) (h : Heap) (e : Engine) :
    context.move_assign a a h e = .ok (h, e) := by
  simp [context.move_assign, pure, Except.pure]

theorem ctor_spec (isolate : Option Isolate) (allocator : Option Nat) (adg ent : Bool)
    (global : Option Template) (e : Engine) :
    (context.ctor isolate allocator adg ent global e).1 =
        { own_isolate_ := isolate == none, enter_context_ := ent,
          isolate_ := some (context.ctor_isolate isolate e),
          impl_ := some { isolate := context.ctor_isolate isolate e, id := e.contexts },
          modules_ := [], lib_path_ := "" }
      ∧ (context.ctor isolate allocator adg ent global e).2.trace =
        e.trace ++ (context.ctor_acquire_calls isolate allocator e
                    ++ context.ctor_scope_calls (context.ctor_isolate isolate e) ent global e) := by
  cases isolate with
  | none =>
    obtain ⟨h1, h2⟩ := ctor_owned allocator adg ent global e
    exact ⟨by rw [h1]; rfl, by rw [h2]; rfl⟩
  | some i =>
    obtain ⟨h1, h2⟩ := ctor_borrowed i allocator adg ent global e
    exact ⟨by rw [h1]; rfl, by rw [h2]; rfl⟩

theorem move_ctor_fst (a : context) : a.move_ctor.1 = a := rfl

theorem move_ctor_snd (a : context) : a.move_ctor.2 = context.inert := rfl

theorem dtor_inert (e : Engine) : context.inert.dtor e = .ok e := by
  simp [context.dtor, context.destroy, context.moved_out, context.inert, bind, Except.bind,
    pure, Except.pure, Global.Reset, release_exports]

theorem after_write_read (e : Engine) (i : Isolate) (x : Ctx) (name : String) (v : Value) :
    (e.after_write i x name v).read x name = some v := by
  simp [Engine.after_write, Engine.read, List.find?_cons]

theorem after_write_bindings (e : Engine) (i : Isolate) (x : Ctx) (name : String) (v : Value) :
    (e.after_write i x name v).bindings x name = 1 := by
  have h : List.filter (fun p : (Ctx × String) × Value => p.1 == (x, name))
      (List.filter (fun p => p.1 != (x, name)) e.props) = [] := by
    rw [List.filter_eq_nil_iff]
    intro p hp
    have := (List.mem_filter.1 hp).2
    simpa using this
  simp [Engine.after_write, Engine.bindings, List.filter_cons, h]

theorem dtor_valid (c : context) (e : Engine) (hv : c.valid) :
    ∃ e1, c.dtor e = .ok e1
      ∧ e1.trace = e.trace ++ c.teardown ++ release_calls c.modules_ := by
  cases hn : c.moved_out with
  | false =>
    obtain ⟨i, x, hi, hx⟩ := valid_not_moved_out c hv hn
    exact dtor_live c e i x hi hx
  | true =>
    obtain ⟨e1, h1, h2⟩ := dtor_moved_out c e hn
    refine ⟨e1, h1, ?_⟩
    have hi : c.isolate_ = none := by
      simp [context.moved_out] at hn; exact hn.1
    rw [h2]
    simp [context.teardown, hi]

theorem move_assign_valid (this_ src : Nat) (h : Heap) (e : Engine) (hne : src ≠ this_)
    (hv : (h this_).valid) :
    ∃ e1, context.move_assign this_ src h e = .ok ((h.set src context.inert).set this_ (h src), e1)
      ∧ e1.trace = e.trace ++ (h this_).teardown ++ release_calls (h this_).modules_ := by
  cases hn : (h this_).moved_out with
  | false =>
    obtain ⟨i, x, hi, hx⟩ := valid_not_moved_out _ hv hn
    exact move_assign_live this_ src h e i x hne hi hx
  | true =>
    obtain ⟨e1, h1, h2⟩ := move_assign_moved_out this_ src h e hne hn
    refine ⟨e1, h1, ?_⟩
    have hi : (h this_).isolate_ = none := by
      simp [context.moved_out] at hn; exact hn.1
    rw [h2]
    simp [context.teardown, hi]

theorem release_calls_count (ms : List (String × dynamic_module)) (k : Call)
    (hk : ∀ v, k ≠ Call.value_reset v) : (release_calls ms).count k = 0 := by
  rw [List.count_eq_zero]
  intro hmem
  simp only [release_calls, List.mem_filterMap] at hmem
  obtain ⟨m, -, hm⟩ := hmem
  cases hex : m.2.exports with
  | none => simp [hex] at hm
  | some v =>
    simp [hex] at hm
    exact hk v hm.symm

theorem teardown_count_dispose (c : context) (hv : c.valid) (j : Isolate) :
    c.teardown.count (Call.isolate_dispose j) = if c.owns j then 1 else 0 := by
  rcases c with ⟨own, ent, iso, impl, ms, lp⟩
  cases iso with
  | none => simp [context.teardown, context.owns]
  | some i =>
    cases impl with
    | none =>
      rcases hv with ⟨-, h2⟩ | h
      · exact absurd rfl h2
      · simp [context.moved_out] at h
    | some x =>
      cases own <;> cases ent <;> by_cases hij : i = j <;>
        simp [context.teardown, context.owns, List.count_cons, hij]

theorem ctor_entered (isolate : Option Isolate) (allocator : Option Nat) (adg ent : Bool)
    (global : Option Template) (e : Engine) :
    (context.ctor isolate allocator adg ent global e).2.entered =
      if ent then { isolate := context.ctor_isolate isolate e, id := e.contexts } :: e.entered
      else e.entered := by
  cases isolate <;> cases allocator <;> cases ent <;> cases global <;>
    simp [context.ctor, context.create_isolate, context.ctor_isolate, Isolate.New,
      Isolate.Enter, HandleScope.ctor, HandleScope.dtor, ObjectTemplate.New, Context.New,
      Context.Enter, Global.Reset_to, Engine.log]

theorem value_entered (o : Oracle) (c : context) (name : String) (v : Value) (e : Engine)
    (r : context × Engine) (h : c.value o name v e = .ok r) : r.2.entered = e.entered := by
  cases hi : c.isolate_ with
  | none => rw [value_not_live o c name v e (Or.inl hi)] at h; cases h
  | some i =>
    cases hx : c.impl_ with
    | none => rw [value_not_live o c name v e (Or.inr hx)] at h; cases h
    | some x =>
      rw [value_live o c name v e i x hi hx] at h
      split at h
      · cases h
      · simp only [Except.ok.injEq] at h
        subst h
        rfl
      · simp only [Except.ok.injEq] at h
        subst h
        rfl

theorem bind_all_entered (o : Oracle) (c : context) (bs : List Binding) (e : Engine)
    (r : context × Engine) (h : c.bind_all o bs e = .ok r) : r.2.entered = e.entered := by
  induction bs generalizing c e with
  | nil =>
    simp only [context.bind_all, Except.ok.injEq] at h
    subst h
    rfl
  | cons b rest ih =>
    cases b with
    | value name v =>
      simp only [context.bind_all, bind, Except.bind] at h
      cases hv : c.value o name v e with
      | error f => simp [hv] at h
      | ok r1 =>
        simp only [hv] at h
        rw [ih r1.1 r1.2 h, value_entered o c name v e r1 hv]
    | module name m =>
      simp only [context.bind_all, bind, Except.bind] at h
      cases hv : c.module o name m e with
      | error f => simp [hv] at h
      | ok r1 =>
        simp only [hv] at h
        rw [ih r1.1 r1.2 h]
        simp only [context.module] at hv
        rw [value_entered o c name _ _ r1 hv]
        rfl

theorem dtor_entered (c : context) (e e1 : Engine) (i : Isolate) (x : Ctx)
    (hi : c.isolate_ = some i) (hx : c.impl_ = some x) (hm : c.modules_ = [])
    (hd : c.dtor e = .ok e1) :
    e1.entered =
      if c.enter_context_ then
        (if e.entered.find? (fun y => y.isolate == x.isolate) = some x
         then e.entered.erase x else e.entered)
      else e.entered := by
  rcases c with ⟨own, ent, iso, impl, ms, lp⟩
  simp only at hi hx hm
  subst hi hx hm
  cases own <;> cases ent <;>
    simp [context.dtor, context.destroy, context.moved_out, deref, to_local, cleanup,
      Context.Exit, Global.Reset, Isolate.Exit, Isolate.Dispose, Engine.log, bind, Except.bind,
      pure, Except.pure, release_exports] at hd <;>
    subst hd <;> simp

/-! ## The class invariant is established and kept -/

theorem ctor_valid (isolate : Option Isolate) (allocator : Option Nat) (adg ent : Bool)
    (global : Option Template) (e : Engine) :
    (context.ctor isolate allocator adg ent global e).1.valid
      ∧ (context.ctor isolate allocator adg ent global e).1.moved_out = false := by
  rw [(ctor_spec isolate allocator adg ent global e).1]
  exact ⟨Or.inl ⟨by simp, by simp⟩, rfl⟩

theorem move_ctor_valid (a : context) (hv : a.valid) :
    a.move_ctor.1.valid ∧ a.move_ctor.2.valid :=
  ⟨hv, Or.inr rfl⟩

theorem destroy_valid (c : context) (e : Engine) (hv : c.valid) :
    ∃ r, c.destroy e = .ok r ∧ r.1.moved_out = true := by
  cases hn : c.moved_out with
  | false =>
    obtain ⟨i, x, hi, hx⟩ := valid_not_moved_out c hv hn
    obtain ⟨e1, h1, -⟩ := destroy_live c e i x hi hx
    exact ⟨_, h1, rfl⟩
  | true => exact ⟨_, destroy_moved_out c e hn, hn⟩

theorem move_assign_keeps_valid (this_ src : Nat) (h : Heap) (e : Engine)
    (hv : ∀ p, (h p).valid) :
    ∃ r, context.move_assign this_ src h e = .ok r ∧ ∀ p, (r.1 p).valid := by
  by_cases hne : src = this_
  · subst hne
    exact ⟨_, move_assign_self src h e, hv⟩
  · obtain ⟨e1, h1, -⟩ := move_assign_valid this_ src h e hne (hv this_)
    refine ⟨_, h1, ?_⟩
    intro p
    by_cases hp : p = this_
    · subst hp; simpa [Heap.set] using hv src
    · by_cases hq : p = src
      · subst hq
        simp only [Heap.set, hp, if_false, if_true]
        exact Or.inr rfl
      · simpa [Heap.set, hp, hq] using hv p

theorem load_module_keeps_valid (ld : Loader) (c : context) (name : String) (hv : c.valid) :
    (c.load_module ld name).2.valid := by
  have h : (c.load_module ld name).2.isolate_ = c.isolate_
      ∧ (c.load_module ld name).2.impl_ = c.impl_ := by
    unfold context.load_module
    split
    · split <;> exact ⟨rfl, rfl⟩
    · dsimp only
      split
      · exact ⟨rfl, rfl⟩
      · split
        · exact ⟨rfl, rfl⟩
        · split <;> exact ⟨rfl, rfl⟩
  simpa [context.valid, context.live, context.moved_out, h.1, h.2] using hv

/-! ## C1: a self-created isolate is disposed exactly once -/

/-- C1: a context constructed with no supplied isolate (any allocator, any enter_context
flag, any global template) creates exactly one isolate, and over its whole lifetime
(construction, any sequence of successful value and module calls, destruction) the trace
of engine calls contains exactly one Dispose, made by the destructor, on the isolate that
create_isolate returned. -/
theorem owned_isolate_disposed_exactly_once (o : Oracle) (allocator : Option Nat)
    (adg enter_context : Bool) (global : Option Template) (bs : List Binding) (e : Engine)
    (r : context × Engine)
    (hb : (context.ctor none allocator adg enter_context global e).1.bind_all o bs
            (context.ctor none allocator adg enter_context global e).2 = .ok r) :
    (context.ctor none allocator adg enter_context global e).1.isolate_ = some e.isolates
      ∧ ∃ e2, r.1.dtor r.2 = .ok e2
        ∧ (e.calls_since e2).filter Call.is_isolate_new
            = [Call.isolate_new (context.chosen_allocator allocator) e.isolates]
        ∧ (e.calls_since e2).filter Call.is_dispose = [Call.isolate_dispose e.isolates]
        ∧ (e.calls_since r.2).filter Call.is_dispose = []
        ∧ (r.2.calls_since e2).filter Call.is_dispose = [Call.isolate_dispose e.isolates] := by
  obtain ⟨hc, ht⟩ := ctor_owned allocator adg enter_context global e
  obtain ⟨hr, l, hl, hbind⟩ := bind_all_ok_inv o _ bs _ r hb
  have hi : r.1.isolate_ = some e.isolates := by rw [hr, hc]
  have hx : r.1.impl_ = some { isolate := e.isolates, id := e.contexts } := by rw [hr, hc]
  obtain ⟨e2, hd, hd2⟩ := dtor_live r.1 r.2 _ _ hi hx
  have hm : r.1.modules_ = [] := by rw [hr, hc]
  have ho : r.1.own_isolate_ = true := by rw [hr, hc]
  have hlf1 : l.filter Call.is_dispose = [] :=
    filter_binding_calls _ l (by intro k hk; cases k <;> simp_all [Call.is_binding_call, Call.is_dispose]) hbind
  have hlf2 : l.filter Call.is_isolate_new = [] :=
    filter_binding_calls _ l (by intro k hk; cases k <;> simp_all [Call.is_binding_call, Call.is_isolate_new]) hbind
  have hs1 := ctor_scope_calls_filter Call.is_dispose e.isolates enter_context global e
    (by intros; rfl) (by intros; rfl) (by intros; rfl) (by intros; rfl) (by intros; rfl)
  have hs2 := ctor_scope_calls_filter Call.is_isolate_new e.isolates enter_context global e
    (by intros; rfl) (by intros; rfl) (by intros; rfl) (by intros; rfl) (by intros; rfl)
  have htd : r.1.teardown =
      [Call.cleanup e.isolates]
        ++ (if r.1.enter_context_ then [Call.context_exit { isolate := e.isolates, id := e.contexts }] else [])
        ++ [Call.global_reset { isolate := e.isolates, id := e.contexts }]
        ++ [Call.isolate_exit e.isolates, Call.isolate_dispose e.isolates] := by
    simp [context.teardown, hi, hx, ho]
  have h2 : e2.trace = r.2.trace ++ r.1.teardown := by
    rw [hd2, hm]; simp [release_calls]
  have hfull : e2.trace = e.trace ++
      (([Call.isolate_new (context.chosen_allocator allocator) e.isolates,
          Call.isolate_enter e.isolates]
          ++ context.ctor_scope_calls e.isolates enter_context global e) ++ l ++ r.1.teardown) := by
    rw [h2, hl, ht]; simp [List.append_assoc]
  have hmid : r.2.trace = e.trace ++
      (([Call.isolate_new (context.chosen_allocator allocator) e.isolates,
          Call.isolate_enter e.isolates]
          ++ context.ctor_scope_calls e.isolates enter_context global e) ++ l) := by
    rw [hl, ht]; simp [List.append_assoc]
  refine ⟨by rw [hc], e2, hd, ?_, ?_, ?_, ?_⟩
  · rw [calls_since_append e e2 _ hfull, htd]
    simp only [List.filter_append, hs2, hlf2]
    cases enter_context <;> cases r.1.enter_context_ <;> simp [Call.is_isolate_new]
  · rw [calls_since_append e e2 _ hfull, htd]
    simp only [List.filter_append, hs1, hlf1]
    cases enter_context <;> cases r.1.enter_context_ <;> simp [Call.is_dispose]
  · rw [calls_since_append e r.2 _ hmid]
    simp only [List.filter_append, hs1, hlf1]
    cases enter_context <;> simp [Call.is_dispose]
  · rw [calls_since_append r.2 e2 _ h2, htd]
    simp only [List.filter_append]
    cases r.1.enter_context_ <;> simp [Call.is_dispose]

/-- C1 at a concrete input: a context on a fresh engine with the default allocator, entered,
bound once, then destroyed. -/
theorem owned_isolate_disposed_exactly_once_witness :
    (context.ctor none none true true none Engine.fresh).1.isolate_ = some Engine.fresh.isolates
      ∧ ∃ e2, (context.ctor none none true true none Engine.fresh).1.dtor
            (Engine.after_write (context.ctor none none true true none Engine.fresh).2 0
              { isolate := 0, id := 0 } "x" 42) = .ok e2
        ∧ (Engine.fresh.calls_since e2).filter Call.is_isolate_new
            = [Call.isolate_new (context.chosen_allocator none) Engine.fresh.isolates]
        ∧ (Engine.fresh.calls_since e2).filter Call.is_dispose
            = [Call.isolate_dispose Engine.fresh.isolates]
        ∧ (Engine.fresh.calls_since (Engine.after_write
              (context.ctor none none true true none Engine.fresh).2 0
              { isolate := 0, id := 0 } "x" 42)).filter Call.is_dispose = []
        ∧ ((Engine.after_write (context.ctor none none true true none Engine.fresh).2 0
              { isolate := 0, id := 0 } "x" 42).calls_since e2).filter Call.is_dispose
            = [Call.isolate_dispose Engine.fresh.isolates] :=
  owned_isolate_disposed_exactly_once Oracle.accept_all none true true none
    [Binding.value "x" 42] Engine.fresh
    ((context.ctor none none true true none Engine.fresh).1,
      Engine.after_write (context.ctor none none true true none Engine.fresh).2 0
        { isolate := 0, id := 0 } "x" 42)
    rfl

/-! ## C2: a host-supplied isolate is never entered, exited or disposed -/

/-- C2: for a context constructed with a host-supplied isolate, own_isolate_ is false and
over the whole lifetime (construction, successful value and module calls, destruction) no
Enter, Exit or Dispose is called on any isolate; destroy() only purges the registry, exits
the context if it was entered and releases the durable context reference. -/
theorem borrowed_isolate_left_running (o : Oracle) (i : Isolate) (allocator : Option Nat)
    (adg enter_context : Bool) (global : Option Template) (bs : List Binding) (e : Engine)
    (r : context × Engine)
    (hb : (context.ctor (some i) allocator adg enter_context global e).1.bind_all o bs
            (context.ctor (some i) allocator adg enter_context global e).2 = .ok r) :
    (context.ctor (some i) allocator adg enter_context global e).1.own_isolate_ = false
      ∧ (context.ctor (some i) allocator adg enter_context global e).1.isolate_ = some i
      ∧ ∃ c2 e2, r.1.destroy r.2 = .ok (c2, e2) ∧ r.1.dtor r.2 = .ok e2
        ∧ (e.calls_since e2).filter Call.is_isolate_lifecycle = []
        ∧ r.2.calls_since e2 =
            [Call.cleanup i]
              ++ (if enter_context then [Call.context_exit { isolate := i, id := e.contexts }]
                  else [])
              ++ [Call.global_reset { isolate := i, id := e.contexts }] := by
  obtain ⟨hc, ht⟩ := ctor_borrowed i allocator adg enter_context global e
  obtain ⟨hr, l, hl, hbind⟩ := bind_all_ok_inv o _ bs _ r hb
  have hi : r.1.isolate_ = some i := by rw [hr, hc]
  have hx : r.1.impl_ = some { isolate := i, id := e.contexts } := by rw [hr, hc]
  have hm : r.1.modules_ = [] := by rw [hr, hc]
  have ho : r.1.own_isolate_ = false := by rw [hr, hc]
  have hen : r.1.enter_context_ = enter_context := by rw [hr, hc]
  obtain ⟨e2, hd1, hd2, h2⟩ := dtor_live_no_modules r.1 r.2 _ _ hi hx hm
  have hlf : l.filter Call.is_isolate_lifecycle = [] :=
    filter_binding_calls _ l
      (by intro k hk; cases k <;> simp_all [Call.is_binding_call, Call.is_isolate_lifecycle])
      hbind
  have hs := ctor_scope_calls_filter Call.is_isolate_lifecycle i enter_context global e
    (by intros; rfl) (by intros; rfl) (by intros; rfl) (by intros; rfl) (by intros; rfl)
  have htd : r.1.teardown =
      [Call.cleanup i]
        ++ (if enter_context then [Call.context_exit { isolate := i, id := e.contexts }] else [])
        ++ [Call.global_reset { isolate := i, id := e.contexts }] := by
    simp [context.teardown, hi, hx, ho, hen]
  have hfull : e2.trace = e.trace ++
      (context.ctor_scope_calls i enter_context global e ++ l ++ r.1.teardown) := by
    rw [h2, hl, ht]; simp [List.append_assoc]
  refine ⟨by rw [hc], by rw [hc], _, e2, hd1, hd2, ?_, ?_⟩
  · rw [calls_since_append e e2 _ hfull, htd]
    simp only [List.filter_append, hs, hlf]
    cases enter_context <;> simp [Call.is_isolate_lifecycle]
  · rw [calls_since_append r.2 e2 _ h2, htd]

/-- C2 at a concrete input: a context borrowing isolate 7, entered, bound once, destroyed. -/
theorem borrowed_isolate_left_running_witness :
    (context.ctor (some 7) (some 3) false true none Engine.fresh).1.own_isolate_ = false
      ∧ (context.ctor (some 7) (some 3) false true none Engine.fresh).1.isolate_ = some 7
      ∧ ∃ c2 e2,
        (context.ctor (some 7) (some 3) false true none Engine.fresh).1.destroy
            (Engine.after_write (context.ctor (some 7) (some 3) false true none Engine.fresh).2 7
              { isolate := 7, id := 0 } "x" 42) = .ok (c2, e2)
        ∧ (context.ctor (some 7) (some 3) false true none Engine.fresh).1.dtor
            (Engine.after_write (context.ctor (some 7) (some 3) false true none Engine.fresh).2 7
              { isolate := 7, id := 0 } "x" 42) = .ok e2
        ∧ (Engine.fresh.calls_since e2).filter Call.is_isolate_lifecycle = []
        ∧ (Engine.after_write (context.ctor (some 7) (some 3) false true none Engine.fresh).2 7
              { isolate := 7, id := 0 } "x" 42).calls_since e2 =
            [Call.cleanup 7]
              ++ (if true then [Call.context_exit { isolate := 7, id := Engine.fresh.contexts }]
                  else [])
              ++ [Call.global_reset { isolate := 7, id := Engine.fresh.contexts }] :=
  borrowed_isolate_left_running Oracle.accept_all 7 (some 3) false true none
    [Binding.value "x" 42] Engine.fresh
    ((context.ctor (some 7) (some 3) false true none Engine.fresh).1,
      Engine.after_write (context.ctor (some 7) (some 3) false true none Engine.fresh).2 7
        { isolate := 7, id := 0 } "x" 42)
    rfl

/-! ## C3: the order of the teardown protocol -/

/-- C3: for every context satisfying the class invariant that is not in the moved-out state,
destroy() succeeds and the engine calls it makes are exactly, in this order: registry purge
cleanup(isolate); Exit of the context iff enter_context_ is set; release (Reset) of the
durable context reference; isolate Exit then isolate Dispose iff own_isolate_ is set.  The
same sequence is made on both destruction paths, the destructor and the destroy() that move
assignment runs on its target (each followed only by the release of the exports of the
module records the object held).  The purge comes strictly before the release of the
durable reference, and the context Exit comes before that release. -/
theorem destroy_protocol_order (c : context) (e : Engine) (hv : c.valid)
    (hn : c.moved_out = false) :
    ∃ i x, c.isolate_ = some i ∧ c.impl_ = some x
      ∧ (∃ c1 e1, c.destroy e = .ok (c1, e1)
          ∧ e.calls_since e1 =
              [Call.cleanup i]
                ++ (if c.enter_context_ then [Call.context_exit x] else [])
                ++ [Call.global_reset x]
                ++ (if c.own_isolate_ then [Call.isolate_exit i, Call.isolate_dispose i] else [])
          ∧ (e.calls_since e1).indexOf (Call.cleanup i)
              < (e.calls_since e1).indexOf (Call.global_reset x)
          ∧ (c.enter_context_ = true →
              (e.calls_since e1).indexOf (Call.context_exit x)
                < (e.calls_since e1).indexOf (Call.global_reset x)))
      ∧ (∃ e2, c.dtor e = .ok e2
          ∧ e.calls_since e2 =
              [Call.cleanup i]
                ++ (if c.enter_context_ then [Call.context_exit x] else [])
                ++ [Call.global_reset x]
                ++ (if c.own_isolate_ then [Call.isolate_exit i, Call.isolate_dispose i] else [])
                ++ release_calls c.modules_)
      ∧ (∀ (h : Heap) (this_ src : Nat), h this_ = c → src ≠ this_ →
          ∃ h1 e3, context.move_assign this_ src h e = .ok (h1, e3)
            ∧ e.calls_since e3 =
              [Call.cleanup i]
                ++ (if c.enter_context_ then [Call.context_exit x] else [])
                ++ [Call.global_reset x]
                ++ (if c.own_isolate_ then [Call.isolate_exit i, Call.isolate_dispose i] else [])
                ++ release_calls c.modules_) := by
  obtain ⟨i, x, hi, hx⟩ := valid_not_moved_out c hv hn
  have htd : c.teardown =
      [Call.cleanup i]
        ++ (if c.enter_context_ then [Call.context_exit x] else [])
        ++ [Call.global_reset x]
        ++ (if c.own_isolate_ then [Call.isolate_exit i, Call.isolate_dispose i] else []) := by
    simp [context.teardown, hi, hx]
  refine ⟨i, x, hi, hx, ?_, ?_, ?_⟩
  · obtain ⟨e1, h1, h2, -⟩ := destroy_live c e i x hi hx
    have hcs := calls_since_append e e1 _ h2
    refine ⟨_, e1, h1, by rw [hcs, htd], ?_, ?_⟩
    · rw [hcs, htd]
      cases c.enter_context_ <;> cases c.own_isolate_ <;> simp [List.indexOf_cons]
    · intro hen
      rw [hcs, htd, hen]
      cases c.own_isolate_ <;> simp [List.indexOf_cons]
  · obtain ⟨e2, h1, h2⟩ := dtor_live c e i x hi hx
    exact ⟨e2, h1, by rw [calls_since_append e e2 _ (by rw [h2, List.append_assoc]), htd]⟩
  · intro h this_ src hc hne
    subst hc
    obtain ⟨e3, h1, h2⟩ := move_assign_live this_ src h e i x hne hi hx
    exact ⟨_, e3, h1, by rw [calls_since_append e e3 _ (by rw [h2, List.append_assoc]), htd]⟩

/-- C3 at a concrete input: a live context that owns its isolate and entered its context. -/
theorem destroy_protocol_order_witness :
    context.sample.valid ∧ context.sample.moved_out = false
      ∧ ∃ i x, context.sample.isolate_ = some i ∧ context.sample.impl_ = some x
      ∧ (∃ c1 e1, context.sample.destroy Engine.fresh = .ok (c1, e1)
          ∧ Engine.fresh.calls_since e1 =
              [Call.cleanup i]
                ++ (if context.sample.enter_context_ then [Call.context_exit x] else [])
                ++ [Call.global_reset x]
                ++ (if context.sample.own_isolate_
                    then [Call.isolate_exit i, Call.isolate_dispose i] else [])
          ∧ (Engine.fresh.calls_since e1).indexOf (Call.cleanup i)
              < (Engine.fresh.calls_since e1).indexOf (Call.global_reset x)
          ∧ (context.sample.enter_context_ = true →
              (Engine.fresh.calls_since e1).indexOf (Call.context_exit x)
                < (Engine.fresh.calls_since e1).indexOf (Call.global_reset x)))
      ∧ (∃ e2, context.sample.dtor Engine.fresh = .ok e2
          ∧ Engine.fresh.calls_since e2 =
              [Call.cleanup i]
                ++ (if context.sample.enter_context_ then [Call.context_exit x] else [])
                ++ [Call.global_reset x]
                ++ (if context.sample.own_isolate_
                    then [Call.isolate_exit i, Call.isolate_dispose i] else [])
                ++ release_calls context.sample.modules_)
      ∧ (∀ (h : Heap) (this_ src : Nat), h this_ = context.sample → src ≠ this_ →
          ∃ h1 e3, context.move_assign this_ src h Engine.fresh = .ok (h1, e3)
            ∧ Engine.fresh.calls_since e3 =
              [Call.cleanup i]
                ++ (if context.sample.enter_context_ then [Call.context_exit x] else [])
                ++ [Call.global_reset x]
                ++ (if context.sample.own_isolate_
                    then [Call.isolate_exit i, Call.isolate_dispose i] else [])
                ++ release_calls context.sample.modules_) :=
  ⟨by decide, by decide,
    destroy_protocol_order context.sample Engine.fresh (by decide) (by decide)⟩

/-! ## C4: destroying a moved-from context is a no-op -/

/-- C4: for every live context a, after move-constructing b from a, destroying a makes no
engine call at all (the engine state is returned unchanged), and destroying b performs
exactly the teardown that destroying the original a would have performed: purge, context
Exit if a had entered, release, isolate Exit and Dispose if a owned its isolate, each once
(followed by the release of the exports of the module records).  Destroying a and b in
either order gives the same single teardown. -/
theorem moved_from_destroy_is_noop (a : context) (e : Engine) (hv : a.valid)
    (hn : a.moved_out = false) :
    a.move_ctor.2.dtor e = .ok e
      ∧ a.move_ctor.2.destroy e = .ok (a.move_ctor.2, e)
      ∧ ∃ i x e1, a.isolate_ = some i ∧ a.impl_ = some x
        ∧ a.move_ctor.1.dtor e = .ok e1
        ∧ a.dtor e = .ok e1
        ∧ e.calls_since e1 =
            [Call.cleanup i]
              ++ (if a.enter_context_ then [Call.context_exit x] else [])
              ++ [Call.global_reset x]
              ++ (if a.own_isolate_ then [Call.isolate_exit i, Call.isolate_dispose i] else [])
              ++ release_calls a.modules_
        ∧ (a.move_ctor.2.dtor e >>= fun e0 => a.move_ctor.1.dtor e0) = .ok e1
        ∧ (a.move_ctor.1.dtor e >>= fun e0 => a.move_ctor.2.dtor e0) = .ok e1
        ∧ (e.calls_since e1).count (Call.cleanup i) = 1
        ∧ (e.calls_since e1).count (Call.global_reset x) = 1
        ∧ (e.calls_since e1).count (Call.context_exit x) = (if a.enter_context_ then 1 else 0)
        ∧ (e.calls_since e1).count (Call.isolate_exit i) = (if a.own_isolate_ then 1 else 0)
        ∧ (e.calls_since e1).count (Call.isolate_dispose i)
            = (if a.own_isolate_ then 1 else 0) := by
  obtain ⟨i, x, hi, hx⟩ := valid_not_moved_out a hv hn
  obtain ⟨e1, h1, h2⟩ := dtor_live a e i x hi hx
  have htd : a.teardown =
      [Call.cleanup i]
        ++ (if a.enter_context_ then [Call.context_exit x] else [])
        ++ [Call.global_reset x]
        ++ (if a.own_isolate_ then [Call.isolate_exit i, Call.isolate_dispose i] else []) := by
    simp [context.teardown, hi, hx]
  have hcs : e.calls_since e1 = a.teardown ++ release_calls a.modules_ :=
    calls_since_append e e1 _ (by rw [h2, List.append_assoc])
  have hrel : ∀ k, (∀ v, k ≠ Call.value_reset v) → (release_calls a.modules_).count k = 0 := by
    intro k hk
    rw [List.count_eq_zero]
    intro hmem
    simp only [release_calls, List.mem_filterMap] at hmem
    obtain ⟨m, -, hm⟩ := hmem
    cases hex : m.2.exports with
    | none => simp [hex] at hm
    | some v =>
      simp [hex] at hm
      exact hk v hm.symm
  rw [move_ctor_snd, move_ctor_fst]
  refine ⟨dtor_inert e, by simp [context.destroy, context.moved_out, context.inert],
    i, x, e1, hi, hx, h1, h1, by rw [hcs, htd], ?_, ?_, ?_, ?_, ?_, ?_, ?_⟩
  · simp [dtor_inert, bind, Except.bind, h1]
  · simp [dtor_inert, bind, Except.bind, h1]
  · rw [hcs, List.count_append, hrel _ (by intro v; simp), htd]
    cases a.enter_context_ <;> cases a.own_isolate_ <;> simp [List.count_cons]
  · rw [hcs, List.count_append, hrel _ (by intro v; simp), htd]
    cases a.enter_context_ <;> cases a.own_isolate_ <;> simp [List.count_cons]
  · rw [hcs, List.count_append, hrel _ (by intro v; simp), htd]
    cases a.enter_context_ <;> cases a.own_isolate_ <;> simp [List.count_cons]
  · rw [hcs, List.count_append, hrel _ (by intro v; simp), htd]
    cases a.enter_context_ <;> cases a.own_isolate_ <;> simp [List.count_cons]
  · rw [hcs, List.count_append, hrel _ (by intro v; simp), htd]
    cases a.enter_context_ <;> cases a.own_isolate_ <;> simp [List.count_cons]

/-- C4 at a concrete input: the sample context is moved from, then both objects die. -/
theorem moved_from_destroy_is_noop_witness :
    context.sample.valid ∧ context.sample.moved_out = false
      ∧ context.sample.move_ctor.2.dtor Engine.fresh = .ok Engine.fresh
      ∧ ∃ e1, context.sample.move_ctor.1.dtor Engine.fresh = .ok e1
        ∧ Engine.fresh.calls_since e1 =
            [Call.cleanup 0, Call.context_exit { isolate := 0, id := 0 },
             Call.global_reset { isolate := 0, id := 0 }, Call.isolate_exit 0,
             Call.isolate_dispose 0, Call.value_reset 5] := by
  obtain ⟨h1, -, i, x, e1, hi, hx, h2, -, h3, -⟩ :=
    moved_from_destroy_is_noop context.sample Engine.fresh (by decide) (by decide)
  have hi0 : i = 0 := by
    have : some (0 : Nat) = some i := hi
    injection this with h; exact h.symm
  have hx0 : x = { isolate := 0, id := 0 } := by
    have : some ({ isolate := 0, id := 0 } : Ctx) = some x := hx
    injection this with h; exact h.symm
  subst hi0 hx0
  exact ⟨by decide, by decide, h1, e1, h2, h3⟩

/-! ## C5: Enter and Exit of the context are symmetric -/

/-- C5: over the lifetime of a context (construction, successful value and module calls,
destruction): when it was constructed with enter_context = true, construction calls Enter
exactly once, on the new context, destruction calls Exit exactly once, on that same
context, nothing in between enters or exits a context, and so the number of Enter calls
equals the number of Exit calls; when it was constructed with enter_context = false, no
context is ever entered or exited.  In both cases the stack of entered contexts is the same
after destruction as before construction. -/
theorem context_enter_exit_symmetric (o : Oracle) (isolate : Option Isolate)
    (allocator : Option Nat) (adg enter_context : Bool) (global : Option Template)
    (bs : List Binding) (e : Engine) (r : context × Engine)
    (hb : (context.ctor isolate allocator adg enter_context global e).1.bind_all o bs
            (context.ctor isolate allocator adg enter_context global e).2 = .ok r) :
    ∃ x e2, (context.ctor isolate allocator adg enter_context global e).1.impl_ = some x
      ∧ r.1.dtor r.2 = .ok e2
      ∧ (enter_context = true →
          (e.calls_since (context.ctor isolate allocator adg enter_context global e).2).filter
              Call.is_context_enter = [Call.context_enter x]
          ∧ (e.calls_since (context.ctor isolate allocator adg enter_context global e).2).filter
              Call.is_context_exit = []
          ∧ ((context.ctor isolate allocator adg enter_context global e).2.calls_since r.2).filter
              (fun k => k.is_context_enter || k.is_context_exit) = []
          ∧ (r.2.calls_since e2).filter Call.is_context_exit = [Call.context_exit x]
          ∧ (r.2.calls_since e2).filter Call.is_context_enter = []
          ∧ (e.calls_since e2).filter Call.is_context_enter = [Call.context_enter x]
          ∧ (e.calls_since e2).filter Call.is_context_exit = [Call.context_exit x]
          ∧ (e.calls_since e2).count (Call.context_enter x)
              = (e.calls_since e2).count (Call.context_exit x))
      ∧ (enter_context = false →
          (e.calls_since e2).filter Call.is_context_enter = []
          ∧ (e.calls_since e2).filter Call.is_context_exit = [])
      ∧ e2.entered = e.entered := by
  obtain ⟨hc, ht⟩ := ctor_spec isolate allocator adg enter_context global e
  obtain ⟨hr, l, hl, hbind⟩ := bind_all_ok_inv o _ bs _ r hb
  have hi : r.1.isolate_ = some (context.ctor_isolate isolate e) := by rw [hr, hc]
  have hx : r.1.impl_
      = some { isolate := context.ctor_isolate isolate e, id := e.contexts } := by rw [hr, hc]
  have hm : r.1.modules_ = [] := by rw [hr, hc]
  have hen : r.1.enter_context_ = enter_context := by rw [hr, hc]
  obtain ⟨e2, -, hd, h2⟩ := dtor_live_no_modules r.1 r.2 _ _ hi hx hm
  have hlf1 : l.filter Call.is_context_enter = [] :=
    filter_binding_calls _ l
      (by intro k hk; cases k <;> simp_all [Call.is_binding_call, Call.is_context_enter]) hbind
  have hlf2 : l.filter Call.is_context_exit = [] :=
    filter_binding_calls _ l
      (by intro k hk; cases k <;> simp_all [Call.is_binding_call, Call.is_context_exit]) hbind
  have hlf3 : l.filter (fun k => k.is_context_enter || k.is_context_exit) = [] :=
    filter_binding_calls _ l
      (by intro k hk; cases k <;>
            simp_all [Call.is_binding_call, Call.is_context_enter, Call.is_context_exit]) hbind
  have hs1 := ctor_scope_calls_filter Call.is_context_enter (context.ctor_isolate isolate e)
    enter_context global e
    (by intros; rfl) (by intros; rfl) (by intros; rfl) (by intros; rfl) (by intros; rfl)
  have hs2 := ctor_scope_calls_filter Call.is_context_exit (context.ctor_isolate isolate e)
    enter_context global e
    (by intros; rfl) (by intros; rfl) (by intros; rfl) (by intros; rfl) (by intros; rfl)
  have ha1 : (context.ctor_acquire_calls isolate allocator e).filter Call.is_context_enter
      = [] := by
    cases isolate <;> rfl
  have ha2 : (context.ctor_acquire_calls isolate allocator e).filter Call.is_context_exit
      = [] := by
    cases isolate <;> rfl
  have htd : r.1.teardown =
      [Call.cleanup (context.ctor_isolate isolate e)]
        ++ (if enter_context
            then [Call.context_exit { isolate := context.ctor_isolate isolate e, id := e.contexts }]
            else [])
        ++ [Call.global_reset { isolate := context.ctor_isolate isolate e, id := e.contexts }]
        ++ (if r.1.own_isolate_
            then [Call.isolate_exit (context.ctor_isolate isolate e),
                  Call.isolate_dispose (context.ctor_isolate isolate e)]
            else []) := by
    simp [context.teardown, hi, hx, hen]
  have hfull : e2.trace = e.trace ++
      (context.ctor_acquire_calls isolate allocator e
        ++ context.ctor_scope_calls (context.ctor_isolate isolate e) enter_context global e
        ++ l ++ r.1.teardown) := by
    rw [h2, hl, ht]; simp [List.append_assoc]
  have hE : (e.calls_since e2).filter Call.is_context_enter =
      if enter_context
      then [Call.context_enter { isolate := context.ctor_isolate isolate e, id := e.contexts }]
      else [] := by
    rw [calls_since_append e e2 _ hfull, htd]
    simp only [List.filter_append, hs1, hlf1, ha1]
    cases enter_context <;> cases r.1.own_isolate_ <;> simp [Call.is_context_enter]
  have hX : (e.calls_since e2).filter Call.is_context_exit =
      if enter_context
      then [Call.context_exit { isolate := context.ctor_isolate isolate e, id := e.contexts }]
      else [] := by
    rw [calls_since_append e e2 _ hfull, htd]
    simp only [List.filter_append, hs2, hlf2, ha2]
    cases enter_context <;> cases r.1.own_isolate_ <;> simp [Call.is_context_exit]
  have hcount : ∀ (p : Call → Bool) (k : Call) (L : List Call), p k = true →
      L.filter p = [k] → L.count k = 1 := by
    intro p k L hp hL
    have h1 : (L.filter p).count k = L.count k := by
      rw [List.count_filter hp]
    rw [← h1, hL]; simp
  have hent : e2.entered = e.entered := by
    rw [dtor_entered r.1 r.2 e2 _ _ hi hx hm hd, hen, bind_all_entered o _ bs _ r hb,
      ctor_entered]
    cases enter_context <;> simp
  refine ⟨_, e2, by rw [hc], hd, ?_, ?_, hent⟩
  · intro ht1
    subst ht1
    simp only [if_true] at hE hX
    refine ⟨?_, ?_, ?_, ?_, ?_, hE, hX, ?_⟩
    · rw [calls_since_append e _ _ ht]
      simp only [List.filter_append, hs1, ha1]
      simp [Call.is_context_enter]
    · rw [calls_since_append e _ _ ht]
      simp only [List.filter_append, hs2, ha2]
      simp [Call.is_context_exit]
    · rw [calls_since_append _ r.2 _ hl]
      exact hlf3
    · rw [calls_since_append r.2 e2 _ h2, htd]
      simp only [List.filter_append]
      cases r.1.own_isolate_ <;> simp [Call.is_context_exit]
    · rw [calls_since_append r.2 e2 _ h2, htd]
      simp only [List.filter_append]
      cases r.1.own_isolate_ <;> simp [Call.is_context_enter]
    · rw [hcount Call.is_context_enter (Call.context_enter _) _ rfl hE,
        hcount Call.is_context_exit (Call.context_exit _) _ rfl hX]
  · intro hf
    subst hf
    exact ⟨hE, hX⟩

/-- C5 at a concrete input: an entered context on a fresh engine, bound once through
module(), then destroyed. -/
theorem context_enter_exit_symmetric_witness :
    ∃ e2, (context.ctor none none true true none Engine.fresh).1.dtor
          (Engine.after_write
            (module.new_instance { obj_ := 3 }
              (context.ctor none none true true none Engine.fresh).2).2
            0 { isolate := 0, id := 0 } "m" 0) = .ok e2
      ∧ (Engine.fresh.calls_since e2).filter Call.is_context_enter
          = [Call.context_enter { isolate := 0, id := 0 }]
      ∧ (Engine.fresh.calls_since e2).filter Call.is_context_exit
          = [Call.context_exit { isolate := 0, id := 0 }] := by
  obtain ⟨x, e2, hx, hd, h1, -, -⟩ :=
    context_enter_exit_symmetric Oracle.accept_all none none true true none
      [Binding.module "m" { obj_ := 3 }] Engine.fresh
      ((context.ctor none none true true none Engine.fresh).1,
        Engine.after_write
          (module.new_instance { obj_ := 3 }
            (context.ctor none none true true none Engine.fresh).2).2
          0 { isolate := 0, id := 0 } "m" 0)
      rfl
  have hx0 : x = { isolate := 0, id := 0 } := by
    have : some ({ isolate := 0, id := 0 } : Ctx) = some x := hx
    injection this with h; exact h.symm
  subst hx0
  obtain ⟨-, -, -, -, -, h6, h7, -⟩ := h1 rfl
  exact ⟨e2, hd, h6, h7⟩

/-! ## C6: value() writes through the engine -/

/-- C6 as stated fails: with the read-only global properties NaN, Infinity and undefined,
value("NaN", 42) on a freshly constructed context returns normally (the engine answers
Just(true), so FromJust succeeds) and a read of NaN afterwards does not yield 42: the
binding was not overwritten. -/
theorem value_read_only_not_overwritten :
    ∃ e1,
      (context.ctor none none true true none Engine.fresh).1.value
          (Oracle.read_only ["NaN", "Infinity", "undefined"]) "NaN" 42
          (context.ctor none none true true none Engine.fresh).2
        = .ok ((context.ctor none none true true none Engine.fresh).1, e1)
      ∧ e1.read { isolate := 0, id := 0 } "NaN" ≠ some 42 :=
  ⟨Engine.after_ignored_write (context.ctor none none true true none Engine.fresh).2 0
      { isolate := 0, id := 0 } "NaN" 42,
    by
      rw [value_live _ _ "NaN" 42 _ 0 { isolate := 0, id := 0 } rfl rfl]
      rfl,
    by decide⟩

/-- C6 (amended): on a live context, value(name, v) calls Set on the global object of the
context that impl_ refers to.  The call fails exactly when the engine rejects the write
(its result is empty), and then by FromJust.  When the engine performs the write, a read of
name afterwards yields v and the global object holds one binding of name, whatever was
bound before; a second performed value(name, v2) makes the read yield v2, still with one
binding (last write wins, no accumulation).  When the engine reports success without
writing (a read-only property, a global object that is not extensible), value returns
normally and every property is as it was. -/
theorem value_write_outcomes (o : Oracle) (c : context) (name : String) (v1 v2 : Value)
    (e : Engine) (i : Isolate) (x : Ctx) (hi : c.isolate_ = some i) (hx : c.impl_ = some x) :
    c.global = .ok x
      ∧ (∀ f, c.value o name v1 e = .error f →
          f = Fault.from_just ∧ o.write_outcome e i x name v1 = SetOutcome.rejected)
      ∧ (o.write_outcome e i x name v1 = SetOutcome.rejected →
          c.value o name v1 e = .error Fault.from_just)
      ∧ (o.write_outcome e i x name v1 = SetOutcome.written →
          ∃ e1, c.value o name v1 e = .ok (c, e1)
            ∧ e1.read x name = some v1 ∧ e1.bindings x name = 1
            ∧ (o.write_outcome e1 i x name v2 = SetOutcome.written →
                ∃ e2, c.value o name v2 e1 = .ok (c, e2)
                  ∧ e2.read x name = some v2 ∧ e2.bindings x name = 1))
      ∧ (o.write_outcome e i x name v1 = SetOutcome.ignored →
          ∃ e1, c.value o name v1 e = .ok (c, e1)
            ∧ e1.props = e.props
            ∧ (∀ (y : Ctx) (n : String), e1.read y n = e.read y n)) := by
  refine ⟨by simp [context.global, to_local, deref, hi, hx, bind, Except.bind], ?_, ?_, ?_, ?_⟩
  · intro f hf
    rw [value_live o c name v1 e i x hi hx] at hf
    cases hr : o.write_outcome e i x name v1 with
    | rejected =>
      rw [hr] at hf
      injection hf with hf
      exact ⟨hf.symm, rfl⟩
    | ignored => rw [hr] at hf; cases hf
    | written => rw [hr] at hf; cases hf
  · intro hr
    rw [value_live o c name v1 e i x hi hx, hr]
  · intro hr
    refine ⟨e.after_write i x name v1, ?_, after_write_read _ _ _ _ _,
      after_write_bindings _ _ _ _ _, ?_⟩
    · rw [value_live o c name v1 e i x hi hx, hr]
    · intro hr2
      refine ⟨(e.after_write i x name v1).after_write i x name v2, ?_,
        after_write_read _ _ _ _ _, after_write_bindings _ _ _ _ _⟩
      rw [value_live o c name v2 _ i x hi hx, hr2]
  · intro hr
    refine ⟨e.after_ignored_write i x name v1, ?_, rfl, fun _ _ => rfl⟩
    rw [value_live o c name v1 e i x hi hx, hr]

/-- C6 (amended) at a concrete input: set x to 42, then to 43, on a constructed context
whose engine performs both writes. -/
theorem value_write_outcomes_witness :
    ∃ e1 e2,
      (context.ctor none none true true none Engine.fresh).1.value Oracle.accept_all "x" 42
          (context.ctor none none true true none Engine.fresh).2
        = .ok ((context.ctor none none true true none Engine.fresh).1, e1)
      ∧ e1.read { isolate := 0, id := 0 } "x" = some 42
      ∧ (context.ctor none none true true none Engine.fresh).1.value Oracle.accept_all "x" 43 e1
        = .ok ((context.ctor none none true true none Engine.fresh).1, e2)
      ∧ e2.read { isolate := 0, id := 0 } "x" = some 43
      ∧ e2.bindings { isolate := 0, id := 0 } "x" = 1 := by
  obtain ⟨-, -, -, h, -⟩ :=
    value_write_outcomes Oracle.accept_all
      (context.ctor none none true true none Engine.fresh).1 "x" 42 43
      (context.ctor none none true true none Engine.fresh).2 0 { isolate := 0, id := 0 }
      rfl rfl
  obtain ⟨e1, h1, h2, -, h3⟩ := h rfl
  obtain ⟨e2, h4, h5, h6⟩ := h3 rfl
  exact ⟨e1, e2, h1, h2, h4, h5, h6⟩

/-! ## C7: acquisition of the isolate in the constructor -/

/-- C7: when an isolate is supplied the context borrows it (own_isolate_ = false), no
isolate is created, the result does not depend on the allocator argument, and no isolate
is entered; when none is supplied a new isolate is created whose array-buffer allocator is
the supplied allocator if non-null and the static array_buffer_allocator_ otherwise,
own_isolate_ is true, and the isolate is entered right after its creation, before the
handle scope is opened and before the context is created. -/
theorem ctor_isolate_acquisition (i : Isolate) (allocator other_allocator : Option Nat)
    (adg enter_context : Bool) (global : Option Template) (e : Engine) :
    ((context.ctor (some i) allocator adg enter_context global e).1.own_isolate_ = false
      ∧ (context.ctor (some i) allocator adg enter_context global e).1.isolate_ = some i
      ∧ context.ctor (some i) allocator adg enter_context global e
          = context.ctor (some i) other_allocator adg enter_context global e
      ∧ (context.ctor (some i) allocator adg enter_context global e).2.isolates = e.isolates
      ∧ (e.calls_since (context.ctor (some i) allocator adg enter_context global e).2).filter
            Call.is_isolate_new = []
      ∧ (e.calls_since (context.ctor (some i) allocator adg enter_context global e).2).filter
            Call.is_isolate_lifecycle = [])
    ∧ ((context.ctor none allocator adg enter_context global e).1.own_isolate_ = true
      ∧ (context.ctor none allocator adg enter_context global e).1.isolate_ = some e.isolates
      ∧ (context.ctor none allocator adg enter_context global e).2.isolates = e.isolates + 1
      ∧ e.calls_since (context.ctor none allocator adg enter_context global e).2 =
          [Call.isolate_new
              (match allocator with
                | some a => Allocator.host a
                | none => Allocator.array_buffer_allocator_) e.isolates,
            Call.isolate_enter e.isolates,
            Call.handle_scope_ctor e.isolates]
          ++ (match global with
              | none => [Call.object_template_new e.isolates e.templates]
              | some _ => [])
          ++ [Call.context_new e.isolates (global.getD e.templates)
                { isolate := e.isolates, id := e.contexts }]
          ++ (if enter_context
              then [Call.context_enter { isolate := e.isolates, id := e.contexts }] else [])
          ++ [Call.global_reset_to e.isolates { isolate := e.isolates, id := e.contexts },
              Call.handle_scope_dtor e.isolates]) := by
  obtain ⟨hb1, hb2⟩ := ctor_borrowed i allocator adg enter_context global e
  obtain ⟨ho1, ho2⟩ := ctor_owned allocator adg enter_context global e
  have hs1 := ctor_scope_calls_filter Call.is_isolate_new i enter_context global e
    (by intros; rfl) (by intros; rfl) (by intros; rfl) (by intros; rfl) (by intros; rfl)
  have hs2 := ctor_scope_calls_filter Call.is_isolate_lifecycle i enter_context global e
    (by intros; rfl) (by intros; rfl) (by intros; rfl) (by intros; rfl) (by intros; rfl)
  refine ⟨⟨by rw [hb1], by rw [hb1], rfl, ?_, ?_, ?_⟩, by rw [ho1], by rw [ho1], ?_, ?_⟩
  · cases enter_context <;> cases global <;>
      simp [context.ctor, HandleScope.ctor, HandleScope.dtor, ObjectTemplate.New, Context.New,
        Context.Enter, Global.Reset_to, Engine.log]
  · rw [calls_since_append e _ _ hb2, hs1]
    cases enter_context <;> simp [Call.is_isolate_new]
  · rw [calls_since_append e _ _ hb2, hs2]
    cases enter_context <;> simp [Call.is_isolate_lifecycle]
  · cases allocator <;> cases enter_context <;> cases global <;>
      simp [context.ctor, context.create_isolate, Isolate.New, Isolate.Enter, HandleScope.ctor,
        HandleScope.dtor, ObjectTemplate.New, Context.New, Context.Enter, Global.Reset_to,
        Engine.log]
  · rw [calls_since_append e _ _ ho2]
    cases allocator <;> cases enter_context <;> cases global <;>
      simp [context.chosen_allocator, context.ctor_scope_calls]

/-! ## C8: what a move transfers and what it leaves behind -/

/-- C8: move construction, and move assignment from a distinct source to a target
satisfying the class invariant, give the destination exactly the former own_isolate_,
enter_context_, isolate_, impl_, modules_ and lib_path_ of the source and leave the source
with own_isolate_ = false, enter_context_ = false, isolate_ = nullptr and an empty impl_,
so that the source passes the moved-out test of destroy(); every other object is
untouched. -/
theorem move_transfers_state (h : Heap) (this_ src : Nat) (e : Engine) (hne : src ≠ this_)
    (hv : (h this_).valid) :
    ((h src).move_ctor.1.own_isolate_ = (h src).own_isolate_
      ∧ (h src).move_ctor.1.enter_context_ = (h src).enter_context_
      ∧ (h src).move_ctor.1.isolate_ = (h src).isolate_
      ∧ (h src).move_ctor.1.impl_ = (h src).impl_
      ∧ (h src).move_ctor.1.modules_ = (h src).modules_
      ∧ (h src).move_ctor.1.lib_path_ = (h src).lib_path_
      ∧ (h src).move_ctor.2.own_isolate_ = false
      ∧ (h src).move_ctor.2.enter_context_ = false
      ∧ (h src).move_ctor.2.isolate_ = none
      ∧ (h src).move_ctor.2.impl_ = none
      ∧ (h src).move_ctor.2.moved_out = true
      ∧ (h src).move_ctor.2.destroy e = .ok ((h src).move_ctor.2, e))
    ∧ ∃ h1 e1, context.move_assign this_ src h e = .ok (h1, e1)
      ∧ (h1 this_).own_isolate_ = (h src).own_isolate_
      ∧ (h1 this_).enter_context_ = (h src).enter_context_
      ∧ (h1 this_).isolate_ = (h src).isolate_
      ∧ (h1 this_).impl_ = (h src).impl_
      ∧ (h1 this_).modules_ = (h src).modules_
      ∧ (h1 this_).lib_path_ = (h src).lib_path_
      ∧ (h1 src).own_isolate_ = false
      ∧ (h1 src).enter_context_ = false
      ∧ (h1 src).isolate_ = none
      ∧ (h1 src).impl_ = none
      ∧ (h1 src).moved_out = true
      ∧ (∀ e3, (h1 src).destroy e3 = .ok (h1 src, e3))
      ∧ (∀ p, p ≠ this_ → p ≠ src → h1 p = h p) := by
  refine ⟨⟨rfl, rfl, rfl, rfl, rfl, rfl, rfl, rfl, rfl, rfl, rfl, ?_⟩, ?_⟩
  · simp [context.destroy, context.moved_out, context.move_ctor]
  · obtain ⟨e1, h1, -⟩ := move_assign_valid this_ src h e hne hv
    have ht : ((h.set src context.inert).set this_ (h src)) this_ = h src := by
      simp [Heap.set]
    have hs : ((h.set src context.inert).set this_ (h src)) src = context.inert := by
      simp [Heap.set, hne]
    refine ⟨_, e1, h1, ?_⟩
    rw [ht, hs]
    refine ⟨rfl, rfl, rfl, rfl, rfl, rfl, rfl, rfl, rfl, rfl, rfl, ?_, ?_⟩
    · intro e3
      simp [context.destroy, context.moved_out, context.inert]
    · intro p hp1 hp2
      simp [Heap.set, hp1, hp2]

/-- C8 at a concrete input: the borrowing object at address 2 is assigned from the owning
object at address 1. -/
theorem move_transfers_state_witness :
    (1 : Nat) ≠ 2 ∧ (Heap.sample 2).valid
      ∧ ∃ h1 e1, context.move_assign 2 1 Heap.sample Engine.fresh = .ok (h1, e1)
        ∧ (h1 2).own_isolate_ = true ∧ (h1 2).isolate_ = some 0
        ∧ (h1 2).impl_ = some { isolate := 0, id := 0 }
        ∧ (h1 1).own_isolate_ = false ∧ (h1 1).isolate_ = none ∧ (h1 1).impl_ = none
        ∧ (h1 1).moved_out = true := by
  obtain ⟨-, h1, e1, hm, a1, -, a3, a4, -, -, b1, -, b3, b4, b5, -⟩ :=
    move_transfers_state Heap.sample 2 1 Engine.fresh (by decide) (by decide)
  exact ⟨by decide, by decide, h1, e1, hm, a1, a3, a4, b1, b3, b4, b5⟩

/-! ## C10: move assignment tears the target down exactly once -/

/-- C10: for distinct objects a and b satisfying the class invariant, a = std::move(b)
succeeds and its engine calls are exactly one run of the destroy() protocol on the previous
state of a (none if a was moved-out; otherwise purge, context Exit if entered, release,
isolate Exit and Dispose if owned), followed by the release of the exports of the module
records a held; afterwards a has the state b had and b is inert.  Destroying both objects
afterwards, in either order, succeeds with the same calls, and over the whole run the
number of Dispose calls on an isolate j is one for each of the two contexts that owned j; as
two contexts never own the same isolate, every owned isolate is disposed exactly once and
no other isolate is disposed.  When a and b are the same object the assignment makes no
engine call and changes no object. -/
theorem move_assign_single_teardown (h : Heap) (a b : Nat) (e : Engine) (hne : b ≠ a)
    (hva : (h a).valid) (hvb : (h b).valid)
    (hown : ∀ j, ¬ ((h a).owns j = true ∧ (h b).owns j = true)) :
    (∃ h1 e1, context.move_assign a b h e = .ok (h1, e1)
      ∧ e.calls_since e1 = (h a).teardown ++ release_calls (h a).modules_
      ∧ ((h a).moved_out = true → (h a).teardown = [])
      ∧ (∀ i x, (h a).isolate_ = some i → (h a).impl_ = some x →
          (h a).teardown =
            [Call.cleanup i]
              ++ (if (h a).enter_context_ then [Call.context_exit x] else [])
              ++ [Call.global_reset x]
              ++ (if (h a).own_isolate_ then [Call.isolate_exit i, Call.isolate_dispose i]
                  else []))
      ∧ h1 a = h b ∧ h1 b = context.inert
      ∧ ∃ e2 e3 e4, (h1 a).dtor e1 = .ok e2 ∧ (h1 b).dtor e2 = .ok e3
        ∧ (h1 b).dtor e1 = .ok e4 ∧ (h1 a).dtor e4 = .ok e3
        ∧ (∀ j, (e.calls_since e3).count (Call.isolate_dispose j)
            = (if (h a).owns j then 1 else 0) + (if (h b).owns j then 1 else 0))
        ∧ (∀ j, (e.calls_since e3).count (Call.isolate_dispose j)
            = if (h a).owns j || (h b).owns j then 1 else 0))
    ∧ context.move_assign a a h e = .ok (h, e) := by
  refine ⟨?_, move_assign_self a h e⟩
  obtain ⟨e1, h1, h2⟩ := move_assign_valid a b h e hne hva
  have ht : ((h.set b context.inert).set a (h b)) a = h b := by simp [Heap.set]
  have hs : ((h.set b context.inert).set a (h b)) b = context.inert := by
    simp [Heap.set, hne]
  obtain ⟨e2, hd1, hd2⟩ := dtor_valid (h b) e1 hvb
  have hcount : ∀ j, (e.calls_since e2).count (Call.isolate_dispose j)
      = (if (h a).owns j then 1 else 0) + (if (h b).owns j then 1 else 0) := by
    intro j
    have hfull : e2.trace = e.trace ++ ((h a).teardown ++ release_calls (h a).modules_
        ++ (h b).teardown ++ release_calls (h b).modules_) := by
      rw [hd2, h2]; simp [List.append_assoc]
    rw [calls_since_append e e2 _ hfull]
    simp only [List.count_append]
    rw [release_calls_count _ _ (by intro v; simp), release_calls_count _ _ (by intro v; simp),
      teardown_count_dispose _ hva, teardown_count_dispose _ hvb]
    simp
  refine ⟨_, e1, h1, calls_since_append e e1 _ (by rw [h2, List.append_assoc]), ?_, ?_, ht, hs,
    e2, e2, e1, ?_, ?_, ?_, ?_, hcount, ?_⟩
  · intro hm
    have hi : (h a).isolate_ = none := by
      simp [context.moved_out] at hm; exact hm.1
    simp [context.teardown, hi]
  · intro i x hi hx
    simp [context.teardown, hi, hx]
  · rw [ht]; exact hd1
  · rw [hs]; exact dtor_inert e2
  · rw [hs]; exact dtor_inert e1
  · rw [ht]; exact hd1
  · intro j
    rw [hcount j]
    have := hown j
    cases h1o : (h a).owns j <;> cases h2o : (h b).owns j <;> simp_all

/-- C10 at a concrete input: the owning object at address 1 is assigned from the
borrowing object at address 2, then both are destroyed. -/
theorem move_assign_single_teardown_witness :
    (2 : Nat) ≠ 1 ∧ (Heap.sample 1).valid ∧ (Heap.sample 2).valid
      ∧ (∀ j, ¬ ((Heap.sample 1).owns j = true ∧ (Heap.sample 2).owns j = true))
      ∧ (∃ h1 e1, context.move_assign 1 2 Heap.sample Engine.fresh = .ok (h1, e1)
          ∧ Engine.fresh.calls_since e1 =
              [Call.cleanup 0, Call.context_exit { isolate := 0, id := 0 },
               Call.global_reset { isolate := 0, id := 0 }, Call.isolate_exit 0,
               Call.isolate_dispose 0, Call.value_reset 5]
          ∧ h1 1 = Heap.sample 2
          ∧ ∃ e2 e3, (h1 1).dtor e1 = .ok e2 ∧ (h1 2).dtor e2 = .ok e3
            ∧ (Engine.fresh.calls_since e3).count (Call.isolate_dispose 0) = 1
            ∧ (Engine.fresh.calls_since e3).count (Call.isolate_dispose 9) = 0)
      ∧ context.move_assign 1 1 Heap.sample Engine.fresh = .ok (Heap.sample, Engine.fresh) := by
  have hown : ∀ j, ¬ ((Heap.sample 1).owns j = true ∧ (Heap.sample 2).owns j = true) := by
    intro j hj
    exact absurd hj.2 (by simp [Heap.sample, context.owns, context.sample_borrowed])
  obtain ⟨⟨h1, e1, hm, hc, -, -, ha, -, e2, e3, -, d1, d2, -, -, hcnt, -⟩, hself⟩ :=
    move_assign_single_teardown Heap.sample 1 2 Engine.fresh (by decide) (by decide)
      (by decide) hown
  refine ⟨by decide, by decide, by decide, hown, ⟨h1, e1, hm, ?_, ha, e2, e3, ?_, d2, ?_, ?_⟩,
    hself⟩
  · rw [hc]; rfl
  · exact d1
  · rw [hcnt 0]; rfl
  · rw [hcnt 9]; rfl

/-! ## C9: load_module is atomic on failure -/

end v8pp
